import Mathlib

/-!
Verification development for the TouchUserInterfaceForArduino repository.

The repository snapshot under verification contains the example sketches,
the font data and the library documentation, but not the implementation
file `TouchUserInterfaceForArduino.cpp`.  Definitions for the behaviour of
the library are therefore modelled from the specification (sections 4.1 to
4.4) and from the API documentation; each such definition carries a doc
comment starting with `Modelled from the spec:`.  The concrete menu tables
and polling loops that do appear in the sources (the example sketches) are
translated directly.
-/

namespace TouchUI

/-- Modelled from the spec: kinds of touch events produced once per poll by
`getTouchEvents` (README constants TOUCH_NO_EVENT, TOUCH_PUSHED_EVENT,
TOUCH_RELEASED_EVENT, TOUCH_REPEAT_EVENT); the implementation file is
missing from the snapshot. -/
inductive TouchEventType
  | noEvent
  | pushedEvent
  | releasedEvent
  | repeatEvent
  deriving DecidableEq, Repr

/-- Modelled from the spec: the transient touch event record, `kind` plus
LCD coordinates, overwritten by every poll. -/
structure TouchEvent where
  eventType : TouchEventType
  x : Int
  y : Int
  deriving DecidableEq, Repr

/-- Modelled from the spec: the five internal states of the touch event
debouncing state machine. -/
inductive TouchState
  | waitingForTouchDown
  | confirmTouchDown
  | waitingForTouchUp
  | waitingForTouchUpAfterRepeat
  | confirmTouchUp
  deriving DecidableEq, Repr

/-- Modelled from the spec: the process-wide mutable state of the touch
channel: current machine state, the timestamp when the current phase
started, and the coordinates frozen when a Pressed event was confirmed. -/
structure TouchScreenState where
  state : TouchState
  eventStartTime : Nat
  recordedX : Int
  recordedY : Int
  deriving DecidableEq, Repr

/-- A raw touch sample: `some (x, y)` when the screen is touched, `none`
otherwise. -/
abbrev TouchSample := Option (Int × Int)

/-- Modelled from the spec: debounce period, 30 ms, a distinct named
constant. -/
def TOUCH_DEBOUNCE_PERIOD_MS : Nat := 30

/-- Modelled from the spec: auto-repeat initial delay, 800 ms, a distinct
named constant. -/
def TOUCH_AUTO_REPEAT_DELAY_MS : Nat := 800

/-- Modelled from the spec: auto-repeat rate, 120 ms, a distinct named
constant. -/
def TOUCH_AUTO_REPEAT_RATE_MS : Nat := 120

/-- The event emitted on polls that detect nothing. -/
def nullTouchEvent : TouchEvent := ⟨TouchEventType.noEvent, 0, 0⟩

/-- Modelled from the spec: one poll of `getTouchEvents`.  Takes the
current channel state, the current time in ms and the raw sample, returns
the new channel state and the single event emitted by this poll, exactly
following the five-state transition table of spec section 4.1. -/
def touchPoll (s : TouchScreenState) (now : Nat) (sample : TouchSample) :
    TouchScreenState × TouchEvent :=
  match s.state with
  | TouchState.waitingForTouchDown =>
    match sample with
    | some _ =>
      ({ s with state := TouchState.confirmTouchDown, eventStartTime := now },
        nullTouchEvent)
    | none => (s, nullTouchEvent)
  | TouchState.confirmTouchDown =>
    if now - s.eventStartTime < TOUCH_DEBOUNCE_PERIOD_MS then
      (s, nullTouchEvent)
    else
      match sample with
      | none =>
        ({ s with state := TouchState.waitingForTouchDown }, nullTouchEvent)
      | some p =>
        ({ state := TouchState.waitingForTouchUp, eventStartTime := now, recordedX := p.1, recordedY := p.2 },
          ⟨TouchEventType.pushedEvent, p.1, p.2⟩)
  | TouchState.waitingForTouchUp =>
    match sample with
    | none =>
      ({ s with state := TouchState.confirmTouchUp, eventStartTime := now },
        nullTouchEvent)
    | some _ =>
      if TOUCH_AUTO_REPEAT_DELAY_MS ≤ now - s.eventStartTime then
        ({ s with state := TouchState.waitingForTouchUpAfterRepeat, eventStartTime := now },
          ⟨TouchEventType.repeatEvent, s.recordedX, s.recordedY⟩)
      else
        (s, nullTouchEvent)
  | TouchState.waitingForTouchUpAfterRepeat =>
    match sample with
    | none =>
      ({ s with state := TouchState.confirmTouchUp, eventStartTime := now },
        nullTouchEvent)
    | some _ =>
      if TOUCH_AUTO_REPEAT_RATE_MS ≤ now - s.eventStartTime then
        ({ s with eventStartTime := now },
          ⟨TouchEventType.repeatEvent, s.recordedX, s.recordedY⟩)
      else
        (s, nullTouchEvent)
  | TouchState.confirmTouchUp =>
    match sample with
    | some _ => ({ s with eventStartTime := now }, nullTouchEvent)
    | none =>
      if TOUCH_DEBOUNCE_PERIOD_MS ≤ now - s.eventStartTime then
        ({ s with state := TouchState.waitingForTouchDown },
          ⟨TouchEventType.releasedEvent, s.recordedX, s.recordedY⟩)
      else
        (s, nullTouchEvent)

/-- The channel state at power-up. -/
def initialTouchState : TouchScreenState :=
  ⟨TouchState.waitingForTouchDown, 0, 0, 0⟩

/-- Run the state machine over a list of raw samples, one poll per ms,
collecting the emitted events. -/
def runTouch (s : TouchScreenState) (t : Nat) :
    List TouchSample → List TouchEvent
  | [] => []
  | smp :: rest =>
    (touchPoll s t smp).2 :: runTouch (touchPoll s t smp).1 (t + 1) rest

/-- The channel state after running the machine over a list of samples. -/
def finalTouchState (s : TouchScreenState) (t : Nat) :
    List TouchSample → TouchScreenState
  | [] => s
  | smp :: rest => finalTouchState (touchPoll s t smp).1 (t + 1) rest

/-- Number of events of a given kind in a list of events. -/
def countEvents (k : TouchEventType) (evs : List TouchEvent) : Nat :=
  evs.countP (fun e => decide (e.eventType = k))

theorem runTouch_append (s : TouchScreenState) (t : Nat)
    (l₁ l₂ : List TouchSample) :
    runTouch s t (l₁ ++ l₂) =
      runTouch s t l₁ ++ runTouch (finalTouchState s t l₁) (t + l₁.length) l₂ := by
  induction l₁ generalizing s t with
  | nil => simp [runTouch, finalTouchState]
  | cons smp rest ih =>
    simp only [List.cons_append, runTouch, finalTouchState, List.length_cons]
    rw [List.append_eq, ih]
    have h : t + 1 + rest.length = t + (rest.length + 1) := by omega
    rw [h]

theorem finalTouchState_append (s : TouchScreenState) (t : Nat)
    (l₁ l₂ : List TouchSample) :
    finalTouchState s t (l₁ ++ l₂) =
      finalTouchState (finalTouchState s t l₁) (t + l₁.length) l₂ := by
  induction l₁ generalizing s t with
  | nil => simp [finalTouchState]
  | cons smp rest ih =>
    simp only [List.cons_append, finalTouchState, List.length_cons]
    rw [List.append_eq, ih]
    have h : t + 1 + rest.length = t + (rest.length + 1) := by omega
    rw [h]

theorem countEvents_append (k : TouchEventType) (l₁ l₂ : List TouchEvent) :
    countEvents k (l₁ ++ l₂) = countEvents k l₁ + countEvents k l₂ := by
  simp [countEvents, List.countP_append]

/-- A single-touch scenario: `a` untouched polls, then `d` touched polls at
the fixed point `pt`, then `g` untouched polls. -/
def pulse (a d g : Nat) (pt : Int × Int) : List TouchSample :=
  List.replicate a none ++ List.replicate d (some pt) ++ List.replicate g none

theorem runTouch_idle (k : Nat) (s : TouchScreenState) (t : Nat)
    (hs : s.state = TouchState.waitingForTouchDown) :
    runTouch s t (List.replicate k none) = List.replicate k nullTouchEvent ∧
      finalTouchState s t (List.replicate k none) = s := by
  induction k generalizing t with
  | zero => simp [runTouch, finalTouchState]
  | succ n ih =>
    have hstep : touchPoll s t none = (s, nullTouchEvent) := by
      simp [touchPoll, hs]
    simp only [List.replicate_succ, runTouch, finalTouchState, hstep]
    exact ⟨by rw [(ih (t + 1)).1], (ih (t + 1)).2⟩

theorem runTouch_confirmDown_window (l : List TouchSample)
    (s : TouchScreenState) (j : Nat)
    (hs : s.state = TouchState.confirmTouchDown)
    (hj : j + l.length ≤ TOUCH_DEBOUNCE_PERIOD_MS) :
    runTouch s (s.eventStartTime + j) l =
        List.replicate l.length nullTouchEvent ∧
      finalTouchState s (s.eventStartTime + j) l = s := by
  induction l generalizing j with
  | nil => simp [runTouch, finalTouchState]
  | cons smp rest ih =>
    have hlen : (smp :: rest).length = rest.length + 1 := rfl
    have hlt : j < TOUCH_DEBOUNCE_PERIOD_MS := by
      rw [hlen] at hj; omega
    have hstep : touchPoll s (s.eventStartTime + j) smp = (s, nullTouchEvent) := by
      simp [touchPoll, hs, hlt]
    have hjs : s.eventStartTime + j + 1 = s.eventStartTime + (j + 1) := by omega
    have hj1 : (j + 1) + rest.length ≤ TOUCH_DEBOUNCE_PERIOD_MS := by
      rw [hlen] at hj; omega
    simp only [runTouch, finalTouchState, hstep, hjs, List.length_cons]
    exact ⟨by rw [(ih (j + 1) hj1).1, List.replicate_succ], (ih (j + 1) hj1).2⟩

theorem runTouch_confirmUp_window (k : Nat) (s : TouchScreenState) (j : Nat)
    (hs : s.state = TouchState.confirmTouchUp)
    (hj : j + k ≤ TOUCH_DEBOUNCE_PERIOD_MS) :
    runTouch s (s.eventStartTime + j) (List.replicate k none) =
        List.replicate k nullTouchEvent ∧
      finalTouchState s (s.eventStartTime + j) (List.replicate k none) = s := by
  induction k generalizing j with
  | zero => simp [runTouch, finalTouchState]
  | succ n ih =>
    have hlt : ¬ TOUCH_DEBOUNCE_PERIOD_MS ≤ j := by omega
    have hstep : touchPoll s (s.eventStartTime + j) none = (s, nullTouchEvent) := by
      simp [touchPoll, hs, hlt]
    have hjs : s.eventStartTime + j + 1 = s.eventStartTime + (j + 1) := by omega
    have hj1 : (j + 1) + n ≤ TOUCH_DEBOUNCE_PERIOD_MS := by omega
    simp only [List.replicate_succ, runTouch, finalTouchState, hstep, hjs]
    exact ⟨by rw [(ih (j + 1) hj1).1], (ih (j + 1) hj1).2⟩

/-- Events emitted while a confirmed touch is held: every event is either
the null event or an auto-repeat at the recorded coordinates. -/
def holdEvents (evs : List TouchEvent) (rx ry : Int) : Prop :=
  ∀ e ∈ evs, e = nullTouchEvent ∨ e = ⟨TouchEventType.repeatEvent, rx, ry⟩

theorem holdEvents_count_ne (evs : List TouchEvent) (rx ry : Int)
    (h : holdEvents evs rx ry) (k : TouchEventType)
    (h1 : k ≠ TouchEventType.noEvent) (h2 : k ≠ TouchEventType.repeatEvent) :
    countEvents k evs = 0 := by
  simp only [countEvents, List.countP_eq_zero]
  intro e he
  rcases h e he with h' | h' <;> subst h' <;> simp [nullTouchEvent]
  · exact fun hk => h1 hk.symm
  · exact fun hk => h2 hk.symm

theorem runTouch_afterRepeat_hold (pt : Int × Int) (k : Nat) :
    ∀ (e : Nat) (s : TouchScreenState),
    s.state = TouchState.waitingForTouchUpAfterRepeat →
    e < TOUCH_AUTO_REPEAT_RATE_MS →
    countEvents TouchEventType.repeatEvent
        (runTouch s (s.eventStartTime + e + 1) (List.replicate k (some pt))) =
      (e + k) / TOUCH_AUTO_REPEAT_RATE_MS ∧
    holdEvents (runTouch s (s.eventStartTime + e + 1) (List.replicate k (some pt)))
        s.recordedX s.recordedY ∧
    (finalTouchState s (s.eventStartTime + e + 1)
        (List.replicate k (some pt))).state =
      TouchState.waitingForTouchUpAfterRepeat ∧
    (finalTouchState s (s.eventStartTime + e + 1)
        (List.replicate k (some pt))).recordedX = s.recordedX ∧
    (finalTouchState s (s.eventStartTime + e + 1)
        (List.replicate k (some pt))).recordedY = s.recordedY := by
  induction k with
  | zero =>
    intro e s hs he
    refine ⟨?_, ?_, hs, rfl, rfl⟩
    · simp [runTouch, finalTouchState, Nat.div_eq_of_lt he, countEvents]
    · simp [runTouch, holdEvents]
  | succ n ih =>
    intro e s hs he
    by_cases hcase : e + 1 < TOUCH_AUTO_REPEAT_RATE_MS
    · have hsub : s.eventStartTime + e + 1 - s.eventStartTime = e + 1 := by omega
      have hcond : ¬ TOUCH_AUTO_REPEAT_RATE_MS ≤ e + 1 := by omega
      have hstep : touchPoll s (s.eventStartTime + e + 1) (some pt) =
          (s, nullTouchEvent) := by
        simp [touchPoll, hs, hsub, hcond]
      have hrec := ih (e + 1) s hs hcase
      have htime : s.eventStartTime + (e + 1) + 1 = s.eventStartTime + e + 1 + 1 := by
        omega
      rw [htime] at hrec
      have hrun : runTouch s (s.eventStartTime + e + 1)
          (List.replicate (n + 1) (some pt)) =
          nullTouchEvent ::
            runTouch s (s.eventStartTime + e + 1 + 1) (List.replicate n (some pt)) := by
        rw [List.replicate_succ]
        simp [runTouch, hstep]
      have hfin : finalTouchState s (s.eventStartTime + e + 1)
          (List.replicate (n + 1) (some pt)) =
          finalTouchState s (s.eventStartTime + e + 1 + 1)
            (List.replicate n (some pt)) := by
        rw [List.replicate_succ]
        simp [finalTouchState, hstep]
      rw [hrun, hfin]
      have harg : e + (n + 1) = (e + 1) + n := by omega
      rw [harg]
      refine ⟨?_, ?_, hrec.2.2⟩
      · have h1 := hrec.1
        rw [countEvents] at h1 ⊢
        rw [List.countP_cons]
        simp only [nullTouchEvent]
        norm_num
        exact h1
      · intro x hx
        rcases List.mem_cons.mp hx with hx' | hx'
        · exact Or.inl hx'
        · exact hrec.2.1 x hx'
    · have he1 : e + 1 = TOUCH_AUTO_REPEAT_RATE_MS := by omega
      have hsub : s.eventStartTime + e + 1 - s.eventStartTime = e + 1 := by omega
      have hcond : TOUCH_AUTO_REPEAT_RATE_MS ≤ e + 1 := by omega
      set s' : TouchScreenState :=
        { s with eventStartTime := s.eventStartTime + e + 1 } with hs'
      have hstep : touchPoll s (s.eventStartTime + e + 1) (some pt) =
          (s', ⟨TouchEventType.repeatEvent, s.recordedX, s.recordedY⟩) := by
        simp [touchPoll, hs, hsub, hcond, hs']
      have hs'state : s'.state = TouchState.waitingForTouchUpAfterRepeat := by
        rw [hs']; exact hs
      have hz : (0 : Nat) < TOUCH_AUTO_REPEAT_RATE_MS := by
        norm_num [TOUCH_AUTO_REPEAT_RATE_MS]
      have hrec := ih 0 s' hs'state hz
      have htime : s'.eventStartTime + 0 + 1 = s.eventStartTime + e + 1 + 1 := by
        rw [hs']
      have hrx : s'.recordedX = s.recordedX := by rw [hs']
      have hry : s'.recordedY = s.recordedY := by rw [hs']
      rw [htime, hrx, hry] at hrec
      have hrun : runTouch s (s.eventStartTime + e + 1)
          (List.replicate (n + 1) (some pt)) =
          (⟨TouchEventType.repeatEvent, s.recordedX, s.recordedY⟩ : TouchEvent) ::
            runTouch s' (s.eventStartTime + e + 1 + 1) (List.replicate n (some pt)) := by
        rw [List.replicate_succ]
        simp [runTouch, hstep]
      have hfin : finalTouchState s (s.eventStartTime + e + 1)
          (List.replicate (n + 1) (some pt)) =
          finalTouchState s' (s.eventStartTime + e + 1 + 1)
            (List.replicate n (some pt)) := by
        rw [List.replicate_succ]
        simp [finalTouchState, hstep]
      rw [hrun, hfin]
      have harg : (e + (n + 1)) / TOUCH_AUTO_REPEAT_RATE_MS =
          (0 + n) / TOUCH_AUTO_REPEAT_RATE_MS + 1 := by
        have h2 : e + (n + 1) = n + TOUCH_AUTO_REPEAT_RATE_MS := by omega
        rw [h2, Nat.add_div_right _ hz, Nat.zero_add]
      refine ⟨?_, ?_, hrec.2.2.1, hrec.2.2.2.1, hrec.2.2.2.2⟩
      · have h1 := hrec.1
        rw [countEvents] at h1 ⊢
        rw [List.countP_cons, harg]
        norm_num
        rw [Nat.zero_add] at h1
        exact h1
      · intro x hx
        rcases List.mem_cons.mp hx with hx' | hx'
        · exact Or.inr hx'
        · exact hrec.2.1 x hx'

theorem runTouch_waitingUp_hold (pt : Int × Int) (k : Nat) :
    ∀ (e : Nat) (s : TouchScreenState),
    s.state = TouchState.waitingForTouchUp →
    e < TOUCH_AUTO_REPEAT_DELAY_MS →
    countEvents TouchEventType.repeatEvent
        (runTouch s (s.eventStartTime + e + 1) (List.replicate k (some pt))) =
      (if e + k < TOUCH_AUTO_REPEAT_DELAY_MS then 0
       else (e + k - TOUCH_AUTO_REPEAT_DELAY_MS) / TOUCH_AUTO_REPEAT_RATE_MS + 1) ∧
    holdEvents (runTouch s (s.eventStartTime + e + 1) (List.replicate k (some pt)))
        s.recordedX s.recordedY ∧
    ((finalTouchState s (s.eventStartTime + e + 1)
        (List.replicate k (some pt))).state = TouchState.waitingForTouchUp ∨
     (finalTouchState s (s.eventStartTime + e + 1)
        (List.replicate k (some pt))).state =
       TouchState.waitingForTouchUpAfterRepeat) ∧
    (finalTouchState s (s.eventStartTime + e + 1)
        (List.replicate k (some pt))).recordedX = s.recordedX ∧
    (finalTouchState s (s.eventStartTime + e + 1)
        (List.replicate k (some pt))).recordedY = s.recordedY := by
  induction k with
  | zero =>
    intro e s hs he
    refine ⟨?_, ?_, Or.inl hs, rfl, rfl⟩
    · simp [runTouch, finalTouchState, countEvents, Nat.add_zero, if_pos he]
    · simp [runTouch, holdEvents]
  | succ n ih =>
    intro e s hs he
    by_cases hcase : e + 1 < TOUCH_AUTO_REPEAT_DELAY_MS
    · have hsub : s.eventStartTime + e + 1 - s.eventStartTime = e + 1 := by omega
      have hcond : ¬ TOUCH_AUTO_REPEAT_DELAY_MS ≤ e + 1 := by omega
      have hstep : touchPoll s (s.eventStartTime + e + 1) (some pt) =
          (s, nullTouchEvent) := by
        simp [touchPoll, hs, hsub, hcond]
      have hrec := ih (e + 1) s hs hcase
      have htime : s.eventStartTime + (e + 1) + 1 = s.eventStartTime + e + 1 + 1 := by
        omega
      rw [htime] at hrec
      have hrun : runTouch s (s.eventStartTime + e + 1)
          (List.replicate (n + 1) (some pt)) =
          nullTouchEvent ::
            runTouch s (s.eventStartTime + e + 1 + 1) (List.replicate n (some pt)) := by
        rw [List.replicate_succ]
        simp [runTouch, hstep]
      have hfin : finalTouchState s (s.eventStartTime + e + 1)
          (List.replicate (n + 1) (some pt)) =
          finalTouchState s (s.eventStartTime + e + 1 + 1)
            (List.replicate n (some pt)) := by
        rw [List.replicate_succ]
        simp [finalTouchState, hstep]
      rw [hrun, hfin]
      have harg : e + (n + 1) = (e + 1) + n := by omega
      rw [harg]
      refine ⟨?_, ?_, hrec.2.2⟩
      · have h1 := hrec.1
        rw [countEvents] at h1 ⊢
        rw [List.countP_cons]
        simp only [nullTouchEvent]
        norm_num
        exact h1
      · intro x hx
        rcases List.mem_cons.mp hx with hx' | hx'
        · exact Or.inl hx'
        · exact hrec.2.1 x hx'
    · have he1 : e + 1 = TOUCH_AUTO_REPEAT_DELAY_MS := by omega
      have hsub : s.eventStartTime + e + 1 - s.eventStartTime = e + 1 := by omega
      have hcond : TOUCH_AUTO_REPEAT_DELAY_MS ≤ e + 1 := by omega
      set s' : TouchScreenState :=
        { s with state := TouchState.waitingForTouchUpAfterRepeat,
                 eventStartTime := s.eventStartTime + e + 1 } with hs'
      have hstep : touchPoll s (s.eventStartTime + e + 1) (some pt) =
          (s', ⟨TouchEventType.repeatEvent, s.recordedX, s.recordedY⟩) := by
        simp [touchPoll, hs, hsub, hcond, hs']
      have hs'state : s'.state = TouchState.waitingForTouchUpAfterRepeat := by
        rw [hs']
      have hz : (0 : Nat) < TOUCH_AUTO_REPEAT_RATE_MS := by
        norm_num [TOUCH_AUTO_REPEAT_RATE_MS]
      have hz' : (0 : Nat) < TOUCH_AUTO_REPEAT_RATE_MS := hz
      have hrec := runTouch_afterRepeat_hold pt n 0 s' hs'state hz
      have htime : s'.eventStartTime + 0 + 1 = s.eventStartTime + e + 1 + 1 := by
        rw [hs']
      have hrx : s'.recordedX = s.recordedX := by rw [hs']
      have hry : s'.recordedY = s.recordedY := by rw [hs']
      rw [htime, hrx, hry] at hrec
      have hrun : runTouch s (s.eventStartTime + e + 1)
          (List.replicate (n + 1) (some pt)) =
          (⟨TouchEventType.repeatEvent, s.recordedX, s.recordedY⟩ : TouchEvent) ::
            runTouch s' (s.eventStartTime + e + 1 + 1) (List.replicate n (some pt)) := by
        rw [List.replicate_succ]
        simp [runTouch, hstep]
      have hfin : finalTouchState s (s.eventStartTime + e + 1)
          (List.replicate (n + 1) (some pt)) =
          finalTouchState s' (s.eventStartTime + e + 1 + 1)
            (List.replicate n (some pt)) := by
        rw [List.replicate_succ]
        simp [finalTouchState, hstep]
      rw [hrun, hfin]
      have harg : (if e + (n + 1) < TOUCH_AUTO_REPEAT_DELAY_MS then 0
          else (e + (n + 1) - TOUCH_AUTO_REPEAT_DELAY_MS) / TOUCH_AUTO_REPEAT_RATE_MS + 1) =
          (0 + n) / TOUCH_AUTO_REPEAT_RATE_MS + 1 := by
        have hge : ¬ e + (n + 1) < TOUCH_AUTO_REPEAT_DELAY_MS := by omega
        rw [if_neg hge]
        have h2 : e + (n + 1) - TOUCH_AUTO_REPEAT_DELAY_MS = n := by omega
        rw [h2, Nat.zero_add]
      refine ⟨?_, ?_, Or.inr hrec.2.2.1, hrec.2.2.2.1, hrec.2.2.2.2⟩
      · have h1 := hrec.1
        rw [countEvents] at h1 ⊢
        rw [List.countP_cons, harg]
        norm_num
        rw [Nat.zero_add] at h1
        exact h1
      · intro x hx
        rcases List.mem_cons.mp hx with hx' | hx'
        · exact Or.inr hx'
        · exact hrec.2.1 x hx'

theorem runTouch_cons (s : TouchScreenState) (t : Nat) (smp : TouchSample)
    (rest : List TouchSample) (s' : TouchScreenState) (ev : TouchEvent)
    (h : touchPoll s t smp = (s', ev)) :
    runTouch s t (smp :: rest) = ev :: runTouch s' (t + 1) rest := by
  simp [runTouch, h]

theorem finalTouchState_cons (s : TouchScreenState) (t : Nat) (smp : TouchSample)
    (rest : List TouchSample) (s' : TouchScreenState) (ev : TouchEvent)
    (h : touchPoll s t smp = (s', ev)) :
    finalTouchState s t (smp :: rest) = finalTouchState s' (t + 1) rest := by
  simp [finalTouchState, h]

theorem runTouch_length (s : TouchScreenState) (t : Nat) (l : List TouchSample) :
    (runTouch s t l).length = l.length := by
  induction l generalizing s t with
  | nil => rfl
  | cons smp rest ih => simp [runTouch, ih]

theorem replicate_split_31 (x : TouchSample) (m : Nat) :
    List.replicate (31 + m) x =
      x :: (List.replicate 29 x ++ x :: List.replicate m x) := by
  rw [show 31 + m = 1 + (29 + (1 + m)) by omega]
  rw [List.replicate_add, List.replicate_add, List.replicate_add]
  simp

/-- Decomposition of the run of the machine over an isolated single-touch
pulse: `a` idle polls, a touch held for `31 + m` polls and a release held
for `31 + n` polls.  The Pressed event fires at poll `a + 30` (the end of
the debounce window), the Released event 30 polls after the release, and
in between the hold segment `H` contains only null and auto-repeat
events. -/
theorem runTouch_pulse_decomp (a m n : Nat) (pt : Int × Int) :
    ∃ H : List TouchEvent,
      runTouch initialTouchState 0 (pulse a (31 + m) (31 + n) pt) =
        List.replicate (a + 30) nullTouchEvent ++
          (⟨TouchEventType.pushedEvent, pt.1, pt.2⟩ : TouchEvent) ::
            (H ++ (List.replicate 30 nullTouchEvent ++
              (⟨TouchEventType.releasedEvent, pt.1, pt.2⟩ : TouchEvent) ::
                List.replicate n nullTouchEvent)) ∧
      H.length = m ∧ holdEvents H pt.1 pt.2 ∧
      countEvents TouchEventType.repeatEvent H =
        (if m < TOUCH_AUTO_REPEAT_DELAY_MS then 0
         else (m - TOUCH_AUTO_REPEAT_DELAY_MS) / TOUCH_AUTO_REPEAT_RATE_MS + 1) := by
  set s1 : TouchScreenState := ⟨TouchState.confirmTouchDown, a, 0, 0⟩ with hs1
  set s2 : TouchScreenState :=
    ⟨TouchState.waitingForTouchUp, a + 30, pt.1, pt.2⟩ with hs2
  refine ⟨runTouch s2 (a + 31) (List.replicate m (some pt)), ?_, ?_, ?_, ?_⟩
  case refine_2 => rw [runTouch_length, List.length_replicate]
  case refine_3 =>
    have hwu := runTouch_waitingUp_hold pt m 0 s2 rfl
      (by norm_num [TOUCH_AUTO_REPEAT_DELAY_MS])
    have ht : s2.eventStartTime + 0 + 1 = a + 31 := by rw [hs2]
    rw [ht] at hwu
    exact hwu.2.1
  case refine_4 =>
    have hwu := runTouch_waitingUp_hold pt m 0 s2 rfl
      (by norm_num [TOUCH_AUTO_REPEAT_DELAY_MS])
    have ht : s2.eventStartTime + 0 + 1 = a + 31 := by rw [hs2]
    rw [ht] at hwu
    rw [Nat.zero_add] at hwu
    exact hwu.1
  case refine_1 =>
    -- split the pulse into its segments
    have hpulse : pulse a (31 + m) (31 + n) pt =
        List.replicate a none ++ some pt ::
          (List.replicate 29 (some pt) ++ some pt ::
            (List.replicate m (some pt) ++ none ::
              (List.replicate 29 none ++ none :: List.replicate n none))) := by
      rw [pulse, replicate_split_31, replicate_split_31]
      simp
    rw [hpulse]
    -- segment 1: idle polls before the touch
    have hidle := runTouch_idle a initialTouchState 0 rfl
    rw [runTouch_append, hidle.1, hidle.2, List.length_replicate, Nat.zero_add]
    -- single poll: touch detected, start the debounce timer
    have hstep1 : touchPoll initialTouchState a (some pt) = (s1, nullTouchEvent) := by
      simp [touchPoll, initialTouchState, hs1]
    rw [runTouch_cons _ _ _ _ _ _ hstep1]
    -- segment 2: the debounce window while touched
    have hwin := runTouch_confirmDown_window (List.replicate 29 (some pt)) s1 1 rfl
      (by simp [TOUCH_DEBOUNCE_PERIOD_MS])
    have ht1 : s1.eventStartTime + 1 = a + 1 := by rw [hs1]
    rw [ht1] at hwin
    rw [runTouch_append, hwin.1, hwin.2, List.length_replicate]
    have ht2 : a + 1 + 29 = a + 30 := by omega
    rw [ht2]
    -- single poll: debounce expired while still touched, emit Pressed
    have hstep2 : touchPoll s1 (a + 30) (some pt) =
        (s2, ⟨TouchEventType.pushedEvent, pt.1, pt.2⟩) := by
      simp [touchPoll, hs1, hs2, TOUCH_DEBOUNCE_PERIOD_MS]
    rw [runTouch_cons _ _ _ _ _ _ hstep2]
    -- segment 3: the hold
    have hwu := runTouch_waitingUp_hold pt m 0 s2 rfl
      (by norm_num [TOUCH_AUTO_REPEAT_DELAY_MS])
    have ht3 : s2.eventStartTime + 0 + 1 = a + 31 := by rw [hs2]
    rw [ht3] at hwu
    set s3 : TouchScreenState :=
      finalTouchState s2 (a + 31) (List.replicate m (some pt)) with hs3
    rw [runTouch_append, List.length_replicate]
    have ht4 : a + 31 + m = a + 31 + m := rfl
    -- single poll: release detected, start the release debounce timer
    set s4 : TouchScreenState :=
      ⟨TouchState.confirmTouchUp, a + 31 + m, pt.1, pt.2⟩ with hs4
    have hstep3 : touchPoll s3 (a + 31 + m) none = (s4, nullTouchEvent) := by
      rcases hwu.2.2.1 with hst | hst <;>
        simp [touchPoll, hst, hs4, hwu.2.2.2.1, hwu.2.2.2.2]
    rw [runTouch_cons _ _ _ _ _ _ hstep3]
    -- segment 4: the release debounce window
    have hwin2 := runTouch_confirmUp_window 29 s4 1 rfl
      (by simp [TOUCH_DEBOUNCE_PERIOD_MS])
    have ht5 : s4.eventStartTime + 1 = a + 31 + m + 1 := by rw [hs4]
    rw [ht5] at hwin2
    rw [runTouch_append, hwin2.1, hwin2.2, List.length_replicate]
    have ht6 : a + 31 + m + 1 + 29 = a + 31 + m + 30 := by omega
    rw [ht6]
    -- single poll: release debounce expired, emit Released
    set s5 : TouchScreenState :=
      ⟨TouchState.waitingForTouchDown, a + 31 + m, pt.1, pt.2⟩ with hs5
    have hstep4 : touchPoll s4 (a + 31 + m + 30) none =
        (s5, ⟨TouchEventType.releasedEvent, pt.1, pt.2⟩) := by
      simp [touchPoll, hs4, hs5, TOUCH_DEBOUNCE_PERIOD_MS]
    rw [runTouch_cons _ _ _ _ _ _ hstep4]
    -- segment 5: trailing idle polls
    have hidle2 := runTouch_idle n s5 (a + 31 + m + 30 + 1) rfl
    rw [hidle2.1]
    -- assemble the event list
    rw [show a + 30 = a + (1 + 29) by omega]
    rw [List.replicate_add, List.replicate_add]
    simp [List.append_assoc]

theorem countEvents_cons (k : TouchEventType) (e : TouchEvent)
    (l : List TouchEvent) :
    countEvents k (e :: l) =
      (if e.eventType = k then 1 else 0) + countEvents k l := by
  rw [countEvents, List.countP_cons, countEvents]
  by_cases h : e.eventType = k <;> simp [h, Nat.add_comm]

theorem countEvents_replicate_null (k : TouchEventType)
    (hk : k ≠ TouchEventType.noEvent) (j : Nat) :
    countEvents k (List.replicate j nullTouchEvent) = 0 := by
  rw [countEvents, List.countP_eq_zero]
  intro e he
  rw [List.eq_of_mem_replicate he]
  simp [nullTouchEvent]
  exact fun h => hk h.symm

/-- A touch that is no longer present when the debounce deadline is polled:
`a` idle polls, `d ≤ 30` touched polls, `g` idle polls.  No event of any
kind is emitted. -/
theorem runTouch_pulse_short (a d g : Nat) (pt : Int × Int)
    (hd : d ≤ TOUCH_DEBOUNCE_PERIOD_MS) :
    runTouch initialTouchState 0 (pulse a d g pt) =
      List.replicate (a + d + g) nullTouchEvent := by
  rcases Nat.eq_zero_or_pos d with hd0 | hdpos
  · subst hd0
    have h : pulse a 0 g pt = List.replicate (a + g) none := by
      rw [pulse, List.replicate_add]
      simp
    rw [h, (runTouch_idle (a + g) initialTouchState 0 rfl).1,
      show a + 0 + g = a + g by omega]
  · obtain ⟨d', hd'⟩ : ∃ d', d = d' + 1 := ⟨d - 1, by omega⟩
    subst hd'
    have hsplit : pulse a (d' + 1) g pt =
        List.replicate a none ++ some pt ::
          (List.replicate d' (some pt) ++ List.replicate g none) := by
      rw [pulse, List.replicate_succ]
      simp
    rw [hsplit]
    set s1 : TouchScreenState := ⟨TouchState.confirmTouchDown, a, 0, 0⟩ with hs1
    have hidle := runTouch_idle a initialTouchState 0 rfl
    rw [runTouch_append, hidle.1, hidle.2, List.length_replicate, Nat.zero_add]
    have hstep1 : touchPoll initialTouchState a (some pt) = (s1, nullTouchEvent) := by
      simp [touchPoll, initialTouchState, hs1]
    rw [runTouch_cons _ _ _ _ _ _ hstep1]
    by_cases hshort : d' + 1 + g ≤ TOUCH_DEBOUNCE_PERIOD_MS
    · -- the whole remainder fits inside the debounce window
      have hwin := runTouch_confirmDown_window
        (List.replicate d' (some pt) ++ List.replicate g none) s1 1 rfl
        (by simp [List.length_append]; omega)
      have ht1 : s1.eventStartTime + 1 = a + 1 := by rw [hs1]
      rw [ht1] at hwin
      rw [hwin.1, List.eq_replicate_iff]
      constructor
      · simp only [List.length_append, List.length_replicate, List.length_cons]
        omega
      · intro b hb
        simp only [List.mem_append, List.mem_cons, List.mem_replicate] at hb
        rcases hb with h' | h' | h' <;> try exact h'.2
        exact h'
    · -- the debounce deadline is polled during the trailing idle segment
      have hg31 : TOUCH_DEBOUNCE_PERIOD_MS + 1 ≤ d' + 1 + g := by omega
      have hgsplit : List.replicate g none =
          (List.replicate (TOUCH_DEBOUNCE_PERIOD_MS - (d' + 1)) none ++
            none :: List.replicate (d' + 1 + g - (TOUCH_DEBOUNCE_PERIOD_MS + 1)) none :
            List TouchSample) := by
        rw [← List.replicate_succ]
        rw [← List.replicate_add]
        congr 1
        have hdeb : TOUCH_DEBOUNCE_PERIOD_MS = 30 := rfl
        omega
      rw [hgsplit, ← List.append_assoc]
      have hwin := runTouch_confirmDown_window
        (List.replicate d' (some pt) ++
          List.replicate (TOUCH_DEBOUNCE_PERIOD_MS - (d' + 1)) none) s1 1 rfl
        (by simp [List.length_append]; omega)
      have ht1 : s1.eventStartTime + 1 = a + 1 := by rw [hs1]
      rw [ht1] at hwin
      rw [runTouch_append, hwin.1, hwin.2, List.length_append,
        List.length_replicate, List.length_replicate]
      set s6 : TouchScreenState := ⟨TouchState.waitingForTouchDown, a, 0, 0⟩ with hs6
      have htt : a + 1 + (d' + (TOUCH_DEBOUNCE_PERIOD_MS - (d' + 1))) =
          a + TOUCH_DEBOUNCE_PERIOD_MS := by
        have hdeb : TOUCH_DEBOUNCE_PERIOD_MS = 30 := rfl
        omega
      rw [htt]
      have hstep6 : touchPoll s1 (a + TOUCH_DEBOUNCE_PERIOD_MS) none =
          (s6, nullTouchEvent) := by
        simp [touchPoll, hs1, hs6]
      rw [runTouch_cons _ _ _ _ _ _ hstep6]
      have hidle2 := runTouch_idle
        (d' + 1 + g - (TOUCH_DEBOUNCE_PERIOD_MS + 1)) s6
        (a + TOUCH_DEBOUNCE_PERIOD_MS + 1) rfl
      rw [hidle2.1, List.eq_replicate_iff]
      have hdeb : TOUCH_DEBOUNCE_PERIOD_MS = 30 := rfl
      constructor
      · simp only [List.length_append, List.length_replicate, List.length_cons]
        omega
      · intro b hb
        simp only [List.mem_append, List.mem_cons, List.mem_replicate] at hb
        rcases hb with h' | h' | h' | h' <;>
          first | exact h'.2 | exact h' | rcases h' with h'' | h'' <;>
            first | exact h'' | exact h''.2

/-- Event counts over an isolated qualifying pulse. -/
theorem runTouch_pulse_counts (a m n : Nat) (pt : Int × Int) :
    countEvents TouchEventType.pushedEvent
        (runTouch initialTouchState 0 (pulse a (31 + m) (31 + n) pt)) = 1 ∧
    countEvents TouchEventType.releasedEvent
        (runTouch initialTouchState 0 (pulse a (31 + m) (31 + n) pt)) = 1 ∧
    countEvents TouchEventType.repeatEvent
        (runTouch initialTouchState 0 (pulse a (31 + m) (31 + n) pt)) =
      (if m < TOUCH_AUTO_REPEAT_DELAY_MS then 0
       else (m - TOUCH_AUTO_REPEAT_DELAY_MS) / TOUCH_AUTO_REPEAT_RATE_MS + 1) := by
  obtain ⟨H, heq, hlen, hhold, hcount⟩ := runTouch_pulse_decomp a m n pt
  rw [heq]
  have hpushH : countEvents TouchEventType.pushedEvent H = 0 :=
    holdEvents_count_ne H pt.1 pt.2 hhold _ (by simp) (by simp)
  have hrelH : countEvents TouchEventType.releasedEvent H = 0 :=
    holdEvents_count_ne H pt.1 pt.2 hhold _ (by simp) (by simp)
  have hrepH : countEvents TouchEventType.repeatEvent H =
      (if m < TOUCH_AUTO_REPEAT_DELAY_MS then 0
       else (m - TOUCH_AUTO_REPEAT_DELAY_MS) / TOUCH_AUTO_REPEAT_RATE_MS + 1) :=
    hcount
  refine ⟨?_, ?_, ?_⟩ <;>
  · rw [countEvents_append, countEvents_cons, countEvents_append,
      countEvents_append, countEvents_cons,
      countEvents_replicate_null _ (by decide),
      countEvents_replicate_null _ (by decide),
      countEvents_replicate_null _ (by decide)]
    simp [hpushH, hrelH, hrepH]

/-- C1 (amended): over any isolated single-touch pulse, the machine emits
exactly one Pressed and exactly one Released when the touch is still
present at the debounce deadline and the release likewise persists through
its debounce window (31 or more polls each), and it emits no event at all
when the touched segment is at most the debounce period (30 polls). -/
theorem touchEvents_pressed_released_per_touch (a d g : Nat) (pt : Int × Int) :
    (31 ≤ d → 31 ≤ g →
      countEvents TouchEventType.pushedEvent
          (runTouch initialTouchState 0 (pulse a d g pt)) = 1 ∧
      countEvents TouchEventType.releasedEvent
          (runTouch initialTouchState 0 (pulse a d g pt)) = 1) ∧
    (d ≤ TOUCH_DEBOUNCE_PERIOD_MS →
      runTouch initialTouchState 0 (pulse a d g pt) =
        List.replicate (a + d + g) nullTouchEvent) := by
  constructor
  · intro hd hg
    have h1 : d = 31 + (d - 31) := by omega
    have h2 : g = 31 + (g - 31) := by omega
    rw [h1, h2]
    exact ⟨(runTouch_pulse_counts a (d - 31) (g - 31) pt).1,
      (runTouch_pulse_counts a (d - 31) (g - 31) pt).2.1⟩
  · exact runTouch_pulse_short a d g pt

/-- Witness for C1: a 2-31-31 pulse yields one Pressed and one Released; a
2-10-40 pulse (touch of 10 polls, under the 30 ms debounce) yields 52 null
events and nothing else. -/
theorem touchEvents_pressed_released_per_touch_witness :
    (countEvents TouchEventType.pushedEvent
        (runTouch initialTouchState 0 (pulse 2 31 31 (5, 7))) = 1 ∧
      countEvents TouchEventType.releasedEvent
        (runTouch initialTouchState 0 (pulse 2 31 31 (5, 7))) = 1) ∧
    runTouch initialTouchState 0 (pulse 2 10 40 (5, 7)) =
      List.replicate 52 nullTouchEvent :=
  ⟨(touchEvents_pressed_released_per_touch 2 31 31 (5, 7)).1 (by norm_num)
      (by norm_num),
    (touchEvents_pressed_released_per_touch 2 10 40 (5, 7)).2 (by decide)⟩

/-- The trace refuting the universally quantified reading of C1: a touch of
10 polls, a 5-poll gap, a touch of 16 polls, then idle.  Both touches are
shorter than the 30 ms debounce period, yet the machine emits a Pressed
and a Released, because the debounce deadline of the first touch is polled
while the second touch happens to be present. -/
def shortTouchBounceTrace : List TouchSample :=
  List.replicate 10 (some (5, 7)) ++ List.replicate 5 none ++
    List.replicate 16 (some (9, 9)) ++ List.replicate 40 none

/-- C1 counterexample: both touches in `shortTouchBounceTrace` last fewer
than the debounce period, yet one Pressed and one Released are emitted. -/
theorem touchEvents_short_touches_counterexample :
    countEvents TouchEventType.pushedEvent
        (runTouch initialTouchState 0 shortTouchBounceTrace) = 1 ∧
    countEvents TouchEventType.releasedEvent
        (runTouch initialTouchState 0 shortTouchBounceTrace) = 1 ∧
    10 < TOUCH_DEBOUNCE_PERIOD_MS ∧ 16 < TOUCH_DEBOUNCE_PERIOD_MS := by
  decide

/-- C3 (amended): over an isolated pulse of `d` touched polls, the Pressed
event fires at poll `a + 30` and the release happens at poll `a + d`, so
the hold lasts `D = d - 30` ms measured from the Pressed event.  The
number of AutoRepeat events equals `(D - delay - 1) / rate + 1` when
`D > delay` and `0` otherwise (the ceiling of `(D - delay) / rate`, not
its floor); whenever `D - delay` is an exact multiple of the repeat rate
this value coincides with the claimed `floor((D - delay) / rate)`. -/
theorem autoRepeat_count (a d g : Nat) (pt : Int × Int)
    (hd : 31 ≤ d) (hg : 31 ≤ g) :
    countEvents TouchEventType.repeatEvent
        (runTouch initialTouchState 0 (pulse a d g pt)) =
      (if d - 31 < TOUCH_AUTO_REPEAT_DELAY_MS then 0
       else (d - 31 - TOUCH_AUTO_REPEAT_DELAY_MS) / TOUCH_AUTO_REPEAT_RATE_MS + 1) ∧
    (∀ j : Nat,
      d - 30 = TOUCH_AUTO_REPEAT_DELAY_MS + TOUCH_AUTO_REPEAT_RATE_MS * j →
      countEvents TouchEventType.repeatEvent
          (runTouch initialTouchState 0 (pulse a d g pt)) =
        (d - 30 - TOUCH_AUTO_REPEAT_DELAY_MS) / TOUCH_AUTO_REPEAT_RATE_MS) := by
  have hdelay : TOUCH_AUTO_REPEAT_DELAY_MS = 800 := rfl
  have hrate : TOUCH_AUTO_REPEAT_RATE_MS = 120 := rfl
  have h1 : d = 31 + (d - 31) := by omega
  have h2 : g = 31 + (g - 31) := by omega
  have hbase : countEvents TouchEventType.repeatEvent
      (runTouch initialTouchState 0 (pulse a d g pt)) =
      (if d - 31 < TOUCH_AUTO_REPEAT_DELAY_MS then 0
       else (d - 31 - TOUCH_AUTO_REPEAT_DELAY_MS) / TOUCH_AUTO_REPEAT_RATE_MS + 1) := by
    conv_lhs => rw [h1, h2]
    exact (runTouch_pulse_counts a (d - 31) (g - 31) pt).2.2
  refine ⟨hbase, ?_⟩
  intro j hj
  rw [hbase, hdelay, hrate]
  rw [hdelay, hrate] at hj
  rcases Nat.eq_zero_or_pos j with hj0 | hjpos
  · subst hj0
    rw [if_pos (by omega), show d - 30 - 800 = 0 by omega]
  · rw [if_neg (by omega)]
    rw [show d - 31 - 800 = 119 + (j - 1) * 120 by omega,
      show d - 30 - 800 = j * 120 by omega]
    rw [Nat.add_mul_div_right _ _ (by norm_num : (0 : Nat) < 120),
      Nat.mul_div_cancel _ (by norm_num : (0 : Nat) < 120)]
    norm_num
    omega

/-- Witness for C3: at the exact multiple `D = 920` (a pulse of 950
touched polls: Pressed at poll 30, release at poll 950), exactly one
AutoRepeat fires, agreeing with the claimed floor formula. -/
theorem autoRepeat_count_witness :
    countEvents TouchEventType.repeatEvent
        (runTouch initialTouchState 0 (pulse 0 950 40 (5, 7))) = 1 := by
  have h := (autoRepeat_count 0 950 40 (5, 7) (by norm_num) (by norm_num)).2 1
    (by decide)
  rw [h]
  decide

/-- C3 counterexample: a pulse of 831 touched polls holds the touch for
801 ms after the Pressed event (Pressed at poll 30, release at poll 831).
The machine fires one AutoRepeat (at poll 830, 800 ms after Pressed), but
the claimed formula floor((801 - 800) / 120) evaluates to 0. -/
theorem autoRepeat_floor_counterexample :
    countEvents TouchEventType.repeatEvent
        (runTouch initialTouchState 0 (pulse 0 831 40 (5, 7))) = 1 ∧
    (831 - 30 - TOUCH_AUTO_REPEAT_DELAY_MS) / TOUCH_AUTO_REPEAT_RATE_MS = 0 := by
  constructor
  · have h := (autoRepeat_count 0 831 40 (5, 7) (by norm_num) (by norm_num)).1
    rw [h]
    decide
  · decide

/-- The channel state before poll `k` of a run that starts at power-up at
time 0. -/
def touchStateAt (samples : List TouchSample) (k : Nat) : TouchScreenState :=
  finalTouchState initialTouchState 0 (samples.take k)

/-- The raw sample fed to poll `k` (`none` past the end of the list). -/
def sampleAt (samples : List TouchSample) (k : Nat) : TouchSample :=
  samples.getD k none

/-- The event emitted by poll `k` of a run from power-up. -/
def touchEventAt (samples : List TouchSample) (k : Nat) : TouchEvent :=
  (touchPoll (touchStateAt samples k) k (sampleAt samples k)).2

theorem touchStateAt_succ (samples : List TouchSample) (k : Nat)
    (hk : k < samples.length) :
    touchStateAt samples (k + 1) =
      (touchPoll (touchStateAt samples k) k (sampleAt samples k)).1 := by
  rw [touchStateAt, touchStateAt, List.take_succ]
  rw [List.getElem?_eq_getElem hk]
  rw [finalTouchState_append]
  rw [List.length_take, Nat.zero_add, Nat.min_eq_left (Nat.le_of_lt hk)]
  have hsm : sampleAt samples k = samples[k] := by
    rw [sampleAt, List.getD_eq_getElem?_getD, List.getElem?_eq_getElem hk]
    rfl
  rw [hsm]
  rfl

theorem touchPoll_freeze_coords (s : TouchScreenState) (t : Nat)
    (smp : TouchSample)
    (h : (touchPoll s t smp).2.eventType = TouchEventType.releasedEvent ∨
      (touchPoll s t smp).2.eventType = TouchEventType.repeatEvent) :
    (touchPoll s t smp).2.x = s.recordedX ∧
      (touchPoll s t smp).2.y = s.recordedY := by
  rcases s with ⟨st, t0, rx, ry⟩
  cases st <;> cases smp <;>
    simp only [touchPoll, nullTouchEvent] at h ⊢ <;>
    first
      | (split <;> simp_all [nullTouchEvent])
      | simp_all

theorem touchPoll_recorded_stable (s : TouchScreenState) (t : Nat)
    (smp : TouchSample)
    (h : (touchPoll s t smp).2.eventType ≠ TouchEventType.pushedEvent) :
    (touchPoll s t smp).1.recordedX = s.recordedX ∧
      (touchPoll s t smp).1.recordedY = s.recordedY := by
  rcases s with ⟨st, t0, rx, ry⟩
  cases st <;> cases smp <;>
    simp only [touchPoll, nullTouchEvent] at h ⊢ <;>
    first
      | (split <;> simp_all [nullTouchEvent])
      | simp_all

theorem touchPoll_pushed_sets (s : TouchScreenState) (t : Nat)
    (smp : TouchSample)
    (h : (touchPoll s t smp).2.eventType = TouchEventType.pushedEvent) :
    (touchPoll s t smp).1.recordedX = (touchPoll s t smp).2.x ∧
      (touchPoll s t smp).1.recordedY = (touchPoll s t smp).2.y ∧
      smp = some ((touchPoll s t smp).2.x, (touchPoll s t smp).2.y) := by
  rcases s with ⟨st, t0, rx, ry⟩
  cases st <;> cases smp <;>
    simp only [touchPoll, nullTouchEvent] at h ⊢ <;>
    first
      | (split <;> simp_all [nullTouchEvent])
      | simp_all

theorem touchRecorded_const (samples : List TouchSample) (i j : Nat)
    (hij : i ≤ j) (hj : j ≤ samples.length)
    (h : ∀ k ∈ Finset.Ico i j,
      (touchEventAt samples k).eventType ≠ TouchEventType.pushedEvent) :
    (touchStateAt samples j).recordedX = (touchStateAt samples i).recordedX ∧
      (touchStateAt samples j).recordedY = (touchStateAt samples i).recordedY := by
  revert hj h
  induction j, hij using Nat.le_induction with
  | base =>
    intro hj h
    exact ⟨rfl, rfl⟩
  | succ j hij ih =>
    intro hj h
    have hjlen : j < samples.length := by omega
    have hstep := touchPoll_recorded_stable (touchStateAt samples j) j
      (sampleAt samples j)
      (h j (Finset.mem_Ico.mpr ⟨hij, Nat.lt_succ_self j⟩))
    have hih := ih (by omega) (fun k hk => by
      rcases Finset.mem_Ico.mp hk with ⟨h1, h2⟩
      exact h k (Finset.mem_Ico.mpr ⟨h1, Nat.lt_succ_of_lt h2⟩))
    rw [touchStateAt_succ samples j hjlen]
    exact ⟨hstep.1.trans hih.1, hstep.2.trans hih.2⟩

/-- C2: in any run from power-up, every Released or AutoRepeat event
carries exactly the coordinates of the most recent Pressed event, and the
Pressed coordinates themselves come from the raw sample of the confirming
poll (the end of the debounce interval), for all raw sample sequences
including ones where the finger drifts after pressing. -/
theorem touchEvents_coords_frozen (samples : List TouchSample) (i j : Nat)
    (hij : i < j) (hj : j < samples.length)
    (hpush : (touchEventAt samples i).eventType = TouchEventType.pushedEvent)
    (hrel : (touchEventAt samples j).eventType = TouchEventType.releasedEvent ∨
      (touchEventAt samples j).eventType = TouchEventType.repeatEvent)
    (hbetween : ∀ k ∈ Finset.Ioo i j,
      (touchEventAt samples k).eventType ≠ TouchEventType.pushedEvent) :
    ((touchEventAt samples j).x = (touchEventAt samples i).x ∧
      (touchEventAt samples j).y = (touchEventAt samples i).y) ∧
    sampleAt samples i =
      some ((touchEventAt samples i).x, (touchEventAt samples i).y) := by
  have hilen : i < samples.length := Nat.lt_trans hij hj
  have hsets := touchPoll_pushed_sets (touchStateAt samples i) i
    (sampleAt samples i) hpush
  refine ⟨?_, hsets.2.2⟩
  have hfreeze := touchPoll_freeze_coords (touchStateAt samples j) j
    (sampleAt samples j) hrel
  have hconst := touchRecorded_const samples (i + 1) j hij hj.le (fun k hk => by
    rcases Finset.mem_Ico.mp hk with ⟨h1, h2⟩
    exact hbetween k (Finset.mem_Ioo.mpr ⟨h1, h2⟩))
  rw [touchStateAt_succ samples i hilen] at hconst
  simp only [touchEventAt]
  constructor
  · rw [hfreeze.1, hconst.1, hsets.1]
  · rw [hfreeze.2, hconst.2, hsets.2.1]

/-- A drift trace: the touch is confirmed at (5, 7), the finger then moves
to (9, 9) before release. -/
def driftTrace : List TouchSample :=
  List.replicate 31 (some (5, 7)) ++ List.replicate 5 (some (9, 9)) ++
    List.replicate 31 none

/-- Witness for C2: on `driftTrace` the Pressed event fires at poll 30
with the sample coordinates (5, 7) and the Released event at poll 66
still reports (5, 7) although the finger last touched at (9, 9). -/
theorem touchEvents_coords_frozen_witness :
    ((touchEventAt driftTrace 66).x = (touchEventAt driftTrace 30).x ∧
      (touchEventAt driftTrace 66).y = (touchEventAt driftTrace 30).y) ∧
    sampleAt driftTrace 30 =
      some ((touchEventAt driftTrace 30).x, (touchEventAt driftTrace 30).y) :=
  touchEvents_coords_frozen driftTrace 30 66 (by norm_num) (by decide)
    (by decide) (Or.inl (by decide)) (by decide)

/-- Modelled from the spec: the BUTTON record of the README, a label plus
a center-point geometry (the implementation file is missing from the
snapshot). -/
structure BUTTON where
  labelText : String
  centerX : Int
  centerY : Int
  width : Int
  height : Int

/-- Modelled from the spec: the hit-test contract of
`checkForTouchEventInRect`: true iff the current event's kind matches and
its coordinates lie within the inclusive rectangle. -/
def checkForTouchEventInRect (ev : TouchEvent) (k : TouchEventType)
    (x1 y1 x2 y2 : Int) : Bool :=
  decide (ev.eventType = k) && decide (x1 ≤ ev.x) && decide (ev.x ≤ x2) &&
    decide (y1 ≤ ev.y) && decide (ev.y ≤ y2)

/-- Modelled from the spec: `checkForButtonClicked` matches a Released
event inside the button's rectangle (the highlight redraw on first touch
is a drawing side effect outside the model). -/
def checkForButtonClicked (b : BUTTON) (ev : TouchEvent) : Bool :=
  checkForTouchEventInRect ev TouchEventType.releasedEvent
    (b.centerX - b.width / 2) (b.centerY - b.height / 2)
    (b.centerX + b.width / 2) (b.centerY + b.height / 2)

/-- Modelled from the spec: `checkForButtonFirstTouched` matches a Pressed
event inside the button's rectangle, true once each time the button is
pressed. -/
def checkForButtonFirstTouched (b : BUTTON) (ev : TouchEvent) : Bool :=
  checkForTouchEventInRect ev TouchEventType.pushedEvent
    (b.centerX - b.width / 2) (b.centerY - b.height / 2)
    (b.centerX + b.width / 2) (b.centerY + b.height / 2)

/-- Modelled from the spec: `checkForButtonAutoRepeat` matches an
AutoRepeat event inside the button's rectangle. -/
def checkForButtonAutoRepeat (b : BUTTON) (ev : TouchEvent) : Bool :=
  checkForTouchEventInRect ev TouchEventType.repeatEvent
    (b.centerX - b.width / 2) (b.centerY - b.height / 2)
    (b.centerX + b.width / 2) (b.centerY + b.height / 2)

theorem countP_replicate_null_zero (p : TouchEvent → Bool)
    (hp : p nullTouchEvent = false) (j : Nat) :
    (List.replicate j nullTouchEvent).countP p = 0 := by
  rw [List.countP_eq_zero]
  intro e he
  rw [List.eq_of_mem_replicate he, hp]
  simp

theorem countP_holdEvents_zero (H : List TouchEvent) (rx ry : Int)
    (hH : holdEvents H rx ry) (p : TouchEvent → Bool)
    (hnull : p nullTouchEvent = false)
    (hrep : p ⟨TouchEventType.repeatEvent, rx, ry⟩ = false) :
    H.countP p = 0 := by
  rw [List.countP_eq_zero]
  intro e he
  rcases hH e he with h | h <;> rw [h] <;> simp [hnull, hrep]

/-- C10: for a single press-and-release of one button (an isolated pulse
whose touch point lies inside the button's rectangle),
`checkForButtonFirstTouched` is true exactly once, on the poll emitting
the Pressed event (poll `a + 30`), and `checkForButtonClicked` is true
exactly once, on the poll emitting the Released event (poll `a + d + 30`);
in particular first-touched fires strictly before clicked: the single
first-touched hit already lies in the first `a + 31` polls while no
clicked hit does before poll `a + d + 30`. -/
theorem button_firstTouched_clicked_once (a d g : Nat) (pt : Int × Int)
    (b : BUTTON) (hd : 31 ≤ d) (hg : 31 ≤ g)
    (hpt : checkForButtonFirstTouched b ⟨TouchEventType.pushedEvent, pt.1, pt.2⟩ = true) :
    (runTouch initialTouchState 0 (pulse a d g pt)).countP
        (checkForButtonFirstTouched b) = 1 ∧
    (runTouch initialTouchState 0 (pulse a d g pt)).countP
        (checkForButtonClicked b) = 1 ∧
    ((runTouch initialTouchState 0 (pulse a d g pt)).take (a + 31)).countP
        (checkForButtonFirstTouched b) = 1 ∧
    ((runTouch initialTouchState 0 (pulse a d g pt)).take (a + d + 30)).countP
        (checkForButtonClicked b) = 0 := by
  have h1 : d = 31 + (d - 31) := by omega
  have h2 : g = 31 + (g - 31) := by omega
  rw [h1, h2]
  obtain ⟨H, heq, hlen, hhold, hcount⟩ :=
    runTouch_pulse_decomp a (d - 31) (g - 31) pt
  rw [heq]
  set pushEv : TouchEvent := ⟨TouchEventType.pushedEvent, pt.1, pt.2⟩ with hpe
  set relEv : TouchEvent := ⟨TouchEventType.releasedEvent, pt.1, pt.2⟩ with hre
  -- the checkers agree on the button rectangle; clicked matches relEv
  have hclickRel : checkForButtonClicked b relEv = true := by
    rw [hpe, checkForButtonFirstTouched, checkForTouchEventInRect] at hpt
    rw [hre, checkForButtonClicked, checkForTouchEventInRect]
    simp only [Bool.and_eq_true, decide_eq_true_eq] at hpt ⊢
    tauto
  have hclickNull : checkForButtonClicked b nullTouchEvent = false := by
    simp [checkForButtonClicked, checkForTouchEventInRect, nullTouchEvent]
  have hclickPush : checkForButtonClicked b pushEv = false := by
    simp [checkForButtonClicked, checkForTouchEventInRect, hpe]
  have hclickRep : checkForButtonClicked b
      ⟨TouchEventType.repeatEvent, pt.1, pt.2⟩ = false := by
    simp [checkForButtonClicked, checkForTouchEventInRect]
  have hftNull : checkForButtonFirstTouched b nullTouchEvent = false := by
    simp [checkForButtonFirstTouched, checkForTouchEventInRect, nullTouchEvent]
  have hftRel : checkForButtonFirstTouched b relEv = false := by
    simp [checkForButtonFirstTouched, checkForTouchEventInRect, hre]
  have hftRep : checkForButtonFirstTouched b
      ⟨TouchEventType.repeatEvent, pt.1, pt.2⟩ = false := by
    simp [checkForButtonFirstTouched, checkForTouchEventInRect]
  have hHft : H.countP (checkForButtonFirstTouched b) = 0 :=
    countP_holdEvents_zero H pt.1 pt.2 hhold _ hftNull hftRep
  have hHclick : H.countP (checkForButtonClicked b) = 0 :=
    countP_holdEvents_zero H pt.1 pt.2 hhold _ hclickNull hclickRep
  refine ⟨?_, ?_, ?_, ?_⟩
  · rw [List.countP_append, List.countP_cons, List.countP_append,
      List.countP_append, List.countP_cons,
      countP_replicate_null_zero _ hftNull,
      countP_replicate_null_zero _ hftNull,
      countP_replicate_null_zero _ hftNull, hHft, hpt, hftRel]
    simp
  · rw [List.countP_append, List.countP_cons, List.countP_append,
      List.countP_append, List.countP_cons,
      countP_replicate_null_zero _ hclickNull,
      countP_replicate_null_zero _ hclickNull,
      countP_replicate_null_zero _ hclickNull, hHclick, hclickRel, hclickPush]
    simp
  · rw [List.append_cons]
    rw [List.take_left' (by simp)]
    rw [List.countP_append, countP_replicate_null_zero _ hftNull]
    simp [hpt]
  · have hassoc : List.replicate (a + 30) nullTouchEvent ++
        pushEv :: (H ++ (List.replicate 30 nullTouchEvent ++
          relEv :: List.replicate (g - 31) nullTouchEvent)) =
        (List.replicate (a + 30) nullTouchEvent ++
          pushEv :: (H ++ List.replicate 30 nullTouchEvent)) ++
          relEv :: List.replicate (g - 31) nullTouchEvent := by
      simp [List.append_assoc]
    rw [hassoc, List.take_left' (by simp [hlen]; omega)]
    rw [List.countP_append, List.countP_cons, List.countP_append,
      countP_replicate_null_zero _ hclickNull,
      countP_replicate_null_zero _ hclickNull, hHclick, hclickPush]
    simp

/-- Witness for C10: a 2-31-31 pulse at a point inside a concrete button:
first-touched and clicked each fire exactly once, in that order. -/
theorem button_firstTouched_clicked_once_witness :
    (runTouch initialTouchState 0 (pulse 2 31 31 (60, 130))).countP
        (checkForButtonFirstTouched ⟨"OK", 60, 130, 40, 40⟩) = 1 ∧
    (runTouch initialTouchState 0 (pulse 2 31 31 (60, 130))).countP
        (checkForButtonClicked ⟨"OK", 60, 130, 40, 40⟩) = 1 ∧
    ((runTouch initialTouchState 0 (pulse 2 31 31 (60, 130))).take 33).countP
        (checkForButtonFirstTouched ⟨"OK", 60, 130, 40, 40⟩) = 1 ∧
    ((runTouch initialTouchState 0 (pulse 2 31 31 (60, 130))).take 63).countP
        (checkForButtonClicked ⟨"OK", 60, 130, 40, 40⟩) = 0 :=
  button_firstTouched_clicked_once 2 31 31 (60, 130) ⟨"OK", 60, 130, 40, 40⟩
    (by norm_num) (by norm_num) (by decide)

/-- Modelled from the spec: the integer Number Box record of the README
(the implementation file is missing from the snapshot). -/
structure NUMBER_BOX where
  labelText : String
  value : Int
  minimumValue : Int
  maximumValue : Int
  stepAmount : Int
  centerX : Int
  centerY : Int
  width : Int
  height : Int

/-- Modelled from the spec: the float Number Box record of the README,
with the float fields modelled by exact rationals. -/
structure NUMBER_BOX_FLOAT where
  labelText : String
  value : ℚ
  minimumValue : ℚ
  maximumValue : ℚ
  stepAmount : ℚ
  digitsRightOfDecimal : Int
  centerX : Int
  centerY : Int
  width : Int
  height : Int

/-- Modelled from the spec: the width of the Number Box's Down and Up
buttons, with the 30 px minimum button width floor. -/
def numberBoxButtonWidth (height : Int) : Int := max height 30

/-- Modelled from the spec: the auto-repeat acceleration multiplier of the
Number Box: floor(repeatCount / 16) + 1. -/
def numberBoxStepMultiplier (repeatCount : Nat) : Nat := repeatCount / 16 + 1

/-- Modelled from the spec: step a value and clamp into the box bounds: a
step that would overflow clamps to the bound rather than wrapping. -/
def clampedStepInt (lo hi v delta : Int) : Int :=
  if hi < v + delta then hi else if v + delta < lo then lo else v + delta

/-- Modelled from the spec: the rational (float) version of the clamped
step. -/
def clampedStepRat (lo hi v delta : ℚ) : ℚ :=
  if hi < v + delta then hi else if v + delta < lo then lo else v + delta

/-- Which of the two Number Box buttons a press lands on. -/
inductive NumberBoxPress
  | downPress
  | upPress
  deriving DecidableEq

/-- Modelled from the spec: which Number Box button (if any) the current
touch event presses: the box is partitioned into down-button, number
field and up-button, the buttons react to Pressed and AutoRepeat events
inside their inclusive rectangles. -/
def numberBoxPressAt (centerX centerY width height : Int)
    (ev : TouchEvent) : Option NumberBoxPress :=
  let bw := numberBoxButtonWidth height
  let left := centerX - width / 2
  let right := centerX + width / 2
  let top := centerY - height / 2
  let bottom := centerY + height / 2
  if (ev.eventType = TouchEventType.pushedEvent ∨
        ev.eventType = TouchEventType.repeatEvent) ∧
      top ≤ ev.y ∧ ev.y ≤ bottom then
    if left ≤ ev.x ∧ ev.x ≤ left + bw then some NumberBoxPress.downPress
    else if right - bw ≤ ev.x ∧ ev.x ≤ right then some NumberBoxPress.upPress
    else none
  else none

/-- Modelled from the spec: one call of `checkForNumberBoxTouched` on the
current event: an Up or Down press steps the value by stepAmount times
the acceleration multiplier and clamps into the bounds; a Pressed event
restarts the repeat counter, an AutoRepeat event advances it.  Returns
the updated box, the updated repeat counter, and whether the value
changed. -/
def checkForNumberBoxTouched (nb : NUMBER_BOX) (repeatCount : Nat)
    (ev : TouchEvent) : NUMBER_BOX × Nat × Bool :=
  match numberBoxPressAt nb.centerX nb.centerY nb.width nb.height ev with
  | none => (nb, repeatCount, false)
  | some press =>
    let rc := match ev.eventType with
      | TouchEventType.pushedEvent => 0
      | _ => repeatCount + 1
    let delta := nb.stepAmount * (numberBoxStepMultiplier rc : Int)
    let newValue := match press with
      | NumberBoxPress.upPress =>
        clampedStepInt nb.minimumValue nb.maximumValue nb.value delta
      | NumberBoxPress.downPress =>
        clampedStepInt nb.minimumValue nb.maximumValue nb.value (-delta)
    ({ nb with value := newValue }, rc, decide (newValue ≠ nb.value))

/-- Modelled from the spec: the float overload of
`checkForNumberBoxTouched`. -/
def checkForNumberBoxFloatTouched (nb : NUMBER_BOX_FLOAT) (repeatCount : Nat)
    (ev : TouchEvent) : NUMBER_BOX_FLOAT × Nat × Bool :=
  match numberBoxPressAt nb.centerX nb.centerY nb.width nb.height ev with
  | none => (nb, repeatCount, false)
  | some press =>
    let rc := match ev.eventType with
      | TouchEventType.pushedEvent => 0
      | _ => repeatCount + 1
    let delta := nb.stepAmount * (numberBoxStepMultiplier rc : ℚ)
    let newValue := match press with
      | NumberBoxPress.upPress =>
        clampedStepRat nb.minimumValue nb.maximumValue nb.value delta
      | NumberBoxPress.downPress =>
        clampedStepRat nb.minimumValue nb.maximumValue nb.value (-delta)
    ({ nb with value := newValue }, rc, decide (newValue ≠ nb.value))

/-- Process a sequence of polled events through the integer Number Box. -/
def runNumberBox (nb : NUMBER_BOX) (rc : Nat) :
    List TouchEvent → NUMBER_BOX × Nat
  | [] => (nb, rc)
  | ev :: rest =>
    runNumberBox (checkForNumberBoxTouched nb rc ev).1
      (checkForNumberBoxTouched nb rc ev).2.1 rest

/-- Process a sequence of polled events through the float Number Box. -/
def runNumberBoxFloat (nb : NUMBER_BOX_FLOAT) (rc : Nat) :
    List TouchEvent → NUMBER_BOX_FLOAT × Nat
  | [] => (nb, rc)
  | ev :: rest =>
    runNumberBoxFloat (checkForNumberBoxFloatTouched nb rc ev).1
      (checkForNumberBoxFloatTouched nb rc ev).2.1 rest

theorem clampedStepInt_mem (lo hi v delta : Int) (hlo : lo ≤ v) (hhi : v ≤ hi) :
    lo ≤ clampedStepInt lo hi v delta ∧ clampedStepInt lo hi v delta ≤ hi := by
  rw [clampedStepInt]
  split
  · exact ⟨le_trans hlo hhi, le_refl hi⟩
  · split
    · exact ⟨le_refl lo, le_trans hlo hhi⟩
    · omega

theorem clampedStepRat_mem (lo hi v delta : ℚ) (hlo : lo ≤ v) (hhi : v ≤ hi) :
    lo ≤ clampedStepRat lo hi v delta ∧ clampedStepRat lo hi v delta ≤ hi := by
  rw [clampedStepRat]
  split
  · exact ⟨le_trans hlo hhi, le_refl hi⟩
  · next h =>
    split
    · exact ⟨le_refl lo, le_trans hlo hhi⟩
    · next h2 => exact ⟨by linarith [not_lt.mp h2], by linarith [not_lt.mp h]⟩

theorem checkForNumberBoxTouched_invariant (nb : NUMBER_BOX) (rc : Nat)
    (ev : TouchEvent) (hlo : nb.minimumValue ≤ nb.value)
    (hhi : nb.value ≤ nb.maximumValue) :
    let res := (checkForNumberBoxTouched nb rc ev).1
    res.minimumValue ≤ res.value ∧ res.value ≤ res.maximumValue ∧
      res.minimumValue = nb.minimumValue ∧ res.maximumValue = nb.maximumValue := by
  rw [checkForNumberBoxTouched]
  cases numberBoxPressAt nb.centerX nb.centerY nb.width nb.height ev with
  | none => exact ⟨hlo, hhi, rfl, rfl⟩
  | some press =>
    cases press <;>
      exact ⟨(clampedStepInt_mem _ _ _ _ hlo hhi).1,
        (clampedStepInt_mem _ _ _ _ hlo hhi).2, rfl, rfl⟩

theorem checkForNumberBoxFloatTouched_invariant (nb : NUMBER_BOX_FLOAT)
    (rc : Nat) (ev : TouchEvent) (hlo : nb.minimumValue ≤ nb.value)
    (hhi : nb.value ≤ nb.maximumValue) :
    let res := (checkForNumberBoxFloatTouched nb rc ev).1
    res.minimumValue ≤ res.value ∧ res.value ≤ res.maximumValue ∧
      res.minimumValue = nb.minimumValue ∧ res.maximumValue = nb.maximumValue := by
  rw [checkForNumberBoxFloatTouched]
  cases numberBoxPressAt nb.centerX nb.centerY nb.width nb.height ev with
  | none => exact ⟨hlo, hhi, rfl, rfl⟩
  | some press =>
    cases press <;>
      exact ⟨(clampedStepRat_mem _ _ _ _ hlo hhi).1,
        (clampedStepRat_mem _ _ _ _ hlo hhi).2, rfl, rfl⟩

/-- C6: a Number Box value that starts inside [minimumValue, maximumValue]
never leaves that interval under any sequence of polled events, including
sustained auto-repeat, for both the integer and the float box; and a step
that would cross a bound clamps exactly to that bound rather than
wrapping. -/
theorem numberBox_bounds_invariant :
    (∀ (nb : NUMBER_BOX) (rc : Nat) (evs : List TouchEvent),
      nb.minimumValue ≤ nb.value → nb.value ≤ nb.maximumValue →
      (runNumberBox nb rc evs).1.minimumValue ≤ (runNumberBox nb rc evs).1.value ∧
      (runNumberBox nb rc evs).1.value ≤ (runNumberBox nb rc evs).1.maximumValue) ∧
    (∀ (nbf : NUMBER_BOX_FLOAT) (rc : Nat) (evs : List TouchEvent),
      nbf.minimumValue ≤ nbf.value → nbf.value ≤ nbf.maximumValue →
      (runNumberBoxFloat nbf rc evs).1.minimumValue ≤
        (runNumberBoxFloat nbf rc evs).1.value ∧
      (runNumberBoxFloat nbf rc evs).1.value ≤
        (runNumberBoxFloat nbf rc evs).1.maximumValue) ∧
    (∀ lo hi v delta : Int, hi < v + delta →
      clampedStepInt lo hi v delta = hi) ∧
    (∀ lo hi v delta : Int, v + delta ≤ hi → v + delta < lo →
      clampedStepInt lo hi v delta = lo) := by
  refine ⟨?_, ?_, ?_, ?_⟩
  · intro nb rc evs
    induction evs generalizing nb rc with
    | nil => exact fun hlo hhi => ⟨hlo, hhi⟩
    | cons ev rest ih =>
      intro hlo hhi
      have hstep := checkForNumberBoxTouched_invariant nb rc ev hlo hhi
      exact ih _ _ hstep.1 hstep.2.1
  · intro nbf rc evs
    induction evs generalizing nbf rc with
    | nil => exact fun hlo hhi => ⟨hlo, hhi⟩
    | cons ev rest ih =>
      intro hlo hhi
      have hstep := checkForNumberBoxFloatTouched_invariant nbf rc ev hlo hhi
      exact ih _ _ hstep.1 hstep.2.1
  · intro lo hi v delta h
    rw [clampedStepInt, if_pos h]
  · intro lo hi v delta h1 h2
    rw [clampedStepInt, if_neg (by omega), if_pos h2]

/-- Witness for C6: a box at value 9 with bounds [0, 10] and step 2: an Up
press would reach 11 and clamps to 10; a full run keeps the value inside
the bounds, and so does the float box. -/
theorem numberBox_bounds_invariant_witness :
    ((runNumberBox ⟨"n", 9, 0, 10, 2, 100, 100, 200, 40⟩ 0
        [⟨TouchEventType.pushedEvent, 180, 100⟩]).1.minimumValue ≤
      (runNumberBox ⟨"n", 9, 0, 10, 2, 100, 100, 200, 40⟩ 0
        [⟨TouchEventType.pushedEvent, 180, 100⟩]).1.value ∧
      (runNumberBox ⟨"n", 9, 0, 10, 2, 100, 100, 200, 40⟩ 0
        [⟨TouchEventType.pushedEvent, 180, 100⟩]).1.value ≤
      (runNumberBox ⟨"n", 9, 0, 10, 2, 100, 100, 200, 40⟩ 0
        [⟨TouchEventType.pushedEvent, 180, 100⟩]).1.maximumValue) ∧
    ((runNumberBoxFloat ⟨"n", (1 : ℚ) / 2, 0, 1, 1 / 100, 2, 100, 100, 200, 40⟩ 0
        [⟨TouchEventType.pushedEvent, 180, 100⟩]).1.minimumValue ≤
      (runNumberBoxFloat ⟨"n", (1 : ℚ) / 2, 0, 1, 1 / 100, 2, 100, 100, 200, 40⟩ 0
        [⟨TouchEventType.pushedEvent, 180, 100⟩]).1.value ∧
      (runNumberBoxFloat ⟨"n", (1 : ℚ) / 2, 0, 1, 1 / 100, 2, 100, 100, 200, 40⟩ 0
        [⟨TouchEventType.pushedEvent, 180, 100⟩]).1.value ≤
      (runNumberBoxFloat ⟨"n", (1 : ℚ) / 2, 0, 1, 1 / 100, 2, 100, 100, 200, 40⟩ 0
        [⟨TouchEventType.pushedEvent, 180, 100⟩]).1.maximumValue) ∧
    clampedStepInt 0 10 9 2 = 10 ∧ clampedStepInt 0 10 1 (-3) = 0 :=
  ⟨numberBox_bounds_invariant.1 _ 0 _ (by norm_num) (by norm_num),
    numberBox_bounds_invariant.2.1 _ 0 _ (by norm_num) (by norm_num),
    numberBox_bounds_invariant.2.2.1 0 10 9 2 (by norm_num),
    numberBox_bounds_invariant.2.2.2 0 10 1 (-3) (by norm_num) (by norm_num)⟩

/-- The total acceleration weight of an initial press (counter 0) followed
by `r` auto-repeats (counters 1 to r): the sum of floor(i / 16) + 1 over
i from 0 to r. -/
def numberBoxDeltaSum (r : Nat) : Nat :=
  Finset.sum (Finset.range (r + 1)) (fun i => i / 16 + 1)

theorem numberBoxDeltaSum_succ (r : Nat) :
    numberBoxDeltaSum (r + 1) = numberBoxDeltaSum r + ((r + 1) / 16 + 1) := by
  rw [numberBoxDeltaSum, numberBoxDeltaSum, Finset.sum_range_succ]

theorem numberBoxDeltaSum_mono {k r : Nat} (h : k ≤ r) :
    numberBoxDeltaSum k ≤ numberBoxDeltaSum r := by
  rw [numberBoxDeltaSum, numberBoxDeltaSum]
  exact Finset.sum_le_sum_of_subset
    (Finset.range_subset.mpr (Nat.succ_le_succ h))

theorem runNumberBox_append (nb : NUMBER_BOX) (rc : Nat)
    (l₁ l₂ : List TouchEvent) :
    runNumberBox nb rc (l₁ ++ l₂) =
      runNumberBox (runNumberBox nb rc l₁).1 (runNumberBox nb rc l₁).2 l₂ := by
  induction l₁ generalizing nb rc with
  | nil => rfl
  | cons ev rest ih =>
    simp only [List.cons_append, runNumberBox]
    rw [List.append_eq, ih]

theorem numberBoxPressAt_repeat_of_pushed (cx cy w h x y : Int)
    (p : NumberBoxPress)
    (hp : numberBoxPressAt cx cy w h ⟨TouchEventType.pushedEvent, x, y⟩ =
      some p) :
    numberBoxPressAt cx cy w h ⟨TouchEventType.repeatEvent, x, y⟩ = some p := by
  simp only [numberBoxPressAt] at hp ⊢
  simpa using hp

theorem numberBoxAccelUp (nb : NUMBER_BOX) (x y : Int) (r : Nat)
    (hup : numberBoxPressAt nb.centerX nb.centerY nb.width nb.height
      ⟨TouchEventType.pushedEvent, x, y⟩ = some NumberBoxPress.upPress)
    (hstep : 0 ≤ nb.stepAmount)
    (hmin : nb.minimumValue ≤ nb.value)
    (hroom : nb.value + nb.stepAmount * (numberBoxDeltaSum r : Int) ≤
      nb.maximumValue) :
    runNumberBox nb 0 (⟨TouchEventType.pushedEvent, x, y⟩ ::
        List.replicate r ⟨TouchEventType.repeatEvent, x, y⟩) =
      ({ nb with value := nb.value +
          nb.stepAmount * (numberBoxDeltaSum r : Int) }, r) := by
  induction r with
  | zero =>
    have hS0 : numberBoxDeltaSum 0 = 1 := by decide
    rw [hS0] at hroom ⊢
    simp only [List.replicate_zero, runNumberBox, checkForNumberBoxTouched, hup]
    have hmult : nb.stepAmount * ((numberBoxStepMultiplier 0 : Nat) : Int) =
        nb.stepAmount * ((1 : Nat) : Int) := by rfl
    rw [hmult]
    have hclamp : clampedStepInt nb.minimumValue nb.maximumValue nb.value
        (nb.stepAmount * ((1 : Nat) : Int)) =
        nb.value + nb.stepAmount * ((1 : Nat) : Int) := by
      rw [clampedStepInt, if_neg (by push_cast at hroom ⊢; omega),
        if_neg (by push_cast; omega)]
    rw [hclamp]
  | succ r ih =>
    have hroomr : nb.value + nb.stepAmount * (numberBoxDeltaSum r : Int) ≤
        nb.maximumValue := by
      have hmono := numberBoxDeltaSum_mono (Nat.le_succ r)
      have : nb.stepAmount * (numberBoxDeltaSum r : Int) ≤
          nb.stepAmount * (numberBoxDeltaSum (r + 1) : Int) :=
        mul_le_mul_of_nonneg_left (by exact_mod_cast hmono) hstep
      omega
    have hih := ih hroomr
    rw [List.replicate_succ' r, ← List.cons_append, runNumberBox_append, hih]
    set nbr : NUMBER_BOX :=
      { nb with value := nb.value +
          nb.stepAmount * (numberBoxDeltaSum r : Int) } with hnbr
    have hupr : numberBoxPressAt nbr.centerX nbr.centerY nbr.width nbr.height
        ⟨TouchEventType.repeatEvent, x, y⟩ = some NumberBoxPress.upPress := by
      rw [hnbr]
      exact numberBoxPressAt_repeat_of_pushed _ _ _ _ _ _ _ hup
    simp only [runNumberBox, checkForNumberBoxTouched, hupr]
    have hval : clampedStepInt nbr.minimumValue nbr.maximumValue nbr.value
        (nbr.stepAmount * ((numberBoxStepMultiplier (r + 1) : Nat) : Int)) =
        nb.value + nb.stepAmount * (numberBoxDeltaSum (r + 1) : Int) := by
      have hfields : nbr.minimumValue = nb.minimumValue ∧
          nbr.maximumValue = nb.maximumValue ∧
          nbr.stepAmount = nb.stepAmount ∧
          nbr.value = nb.value +
            nb.stepAmount * (numberBoxDeltaSum r : Int) := by
        rw [hnbr]
        exact ⟨rfl, rfl, rfl, rfl⟩
      rw [hfields.1, hfields.2.1, hfields.2.2.1, hfields.2.2.2]
      have hsum : nb.value + nb.stepAmount * (numberBoxDeltaSum r : Int) +
          nb.stepAmount * ((numberBoxStepMultiplier (r + 1) : Nat) : Int) =
          nb.value + nb.stepAmount * (numberBoxDeltaSum (r + 1) : Int) := by
        rw [numberBoxStepMultiplier, numberBoxDeltaSum_succ]
        push_cast
        ring
      rw [clampedStepInt, hsum]
      rw [if_neg (by omega), if_neg ?hge]
      case hge =>
        have hge0 : ((0 : Nat) : Int) ≤
            nb.stepAmount * (numberBoxDeltaSum (r + 1) : Int) :=
          mul_nonneg hstep (by exact_mod_cast Nat.zero_le _)
        push_cast at hge0
        omega
    rw [hval]

theorem numberBoxAccelDown (nb : NUMBER_BOX) (x y : Int) (r : Nat)
    (hdown : numberBoxPressAt nb.centerX nb.centerY nb.width nb.height
      ⟨TouchEventType.pushedEvent, x, y⟩ = some NumberBoxPress.downPress)
    (hstep : 0 ≤ nb.stepAmount)
    (hmax : nb.value ≤ nb.maximumValue)
    (hroom : nb.minimumValue ≤ nb.value -
      nb.stepAmount * (numberBoxDeltaSum r : Int)) :
    runNumberBox nb 0 (⟨TouchEventType.pushedEvent, x, y⟩ ::
        List.replicate r ⟨TouchEventType.repeatEvent, x, y⟩) =
      ({ nb with value := nb.value -
          nb.stepAmount * (numberBoxDeltaSum r : Int) }, r) := by
  induction r with
  | zero =>
    have hS0 : numberBoxDeltaSum 0 = 1 := by decide
    rw [hS0] at hroom ⊢
    simp only [List.replicate_zero, runNumberBox, checkForNumberBoxTouched,
      hdown]
    have hmult : nb.stepAmount * ((numberBoxStepMultiplier 0 : Nat) : Int) =
        nb.stepAmount * ((1 : Nat) : Int) := by rfl
    rw [hmult]
    have hclamp : clampedStepInt nb.minimumValue nb.maximumValue nb.value
        (-(nb.stepAmount * ((1 : Nat) : Int))) =
        nb.value - nb.stepAmount * ((1 : Nat) : Int) := by
      rw [clampedStepInt, if_neg (by push_cast; omega),
        if_neg (by push_cast at hroom ⊢; omega)]
      push_cast
      ring
    rw [hclamp]
  | succ r ih =>
    have hroomr : nb.minimumValue ≤ nb.value -
        nb.stepAmount * (numberBoxDeltaSum r : Int) := by
      have hmono := numberBoxDeltaSum_mono (Nat.le_succ r)
      have : nb.stepAmount * (numberBoxDeltaSum r : Int) ≤
          nb.stepAmount * (numberBoxDeltaSum (r + 1) : Int) :=
        mul_le_mul_of_nonneg_left (by exact_mod_cast hmono) hstep
      omega
    have hih := ih hroomr
    rw [List.replicate_succ' r, ← List.cons_append, runNumberBox_append, hih]
    set nbr : NUMBER_BOX :=
      { nb with value := nb.value -
          nb.stepAmount * (numberBoxDeltaSum r : Int) } with hnbr
    have hdr : numberBoxPressAt nbr.centerX nbr.centerY nbr.width nbr.height
        ⟨TouchEventType.repeatEvent, x, y⟩ = some NumberBoxPress.downPress := by
      rw [hnbr]
      exact numberBoxPressAt_repeat_of_pushed _ _ _ _ _ _ _ hdown
    simp only [runNumberBox, checkForNumberBoxTouched, hdr]
    have hval : clampedStepInt nbr.minimumValue nbr.maximumValue nbr.value
        (-(nbr.stepAmount * ((numberBoxStepMultiplier (r + 1) : Nat) : Int))) =
        nb.value - nb.stepAmount * (numberBoxDeltaSum (r + 1) : Int) := by
      have hfields : nbr.minimumValue = nb.minimumValue ∧
          nbr.maximumValue = nb.maximumValue ∧
          nbr.stepAmount = nb.stepAmount ∧
          nbr.value = nb.value -
            nb.stepAmount * (numberBoxDeltaSum r : Int) := by
        rw [hnbr]
        exact ⟨rfl, rfl, rfl, rfl⟩
      rw [hfields.1, hfields.2.1, hfields.2.2.1, hfields.2.2.2]
      have hsum : nb.value - nb.stepAmount * (numberBoxDeltaSum r : Int) +
          -(nb.stepAmount * ((numberBoxStepMultiplier (r + 1) : Nat) : Int)) =
          nb.value - nb.stepAmount * (numberBoxDeltaSum (r + 1) : Int) := by
        rw [numberBoxStepMultiplier, numberBoxDeltaSum_succ]
        push_cast
        ring
      have hge0 : ((0 : Nat) : Int) ≤
          nb.stepAmount * (numberBoxDeltaSum (r + 1) : Int) :=
        mul_nonneg hstep (by exact_mod_cast Nat.zero_le _)
      push_cast at hge0
      rw [clampedStepInt, hsum]
      rw [if_neg (by omega), if_neg (by omega)]
    rw [hval]

/-- C7: a press on the Up or Down button followed by `r` auto-repeat
events steps the value once per event by stepAmount times the
acceleration multiplier floor(repeatCount / 16) + 1, the press resetting
the counter to 0 and each repeat advancing it; the step is added for the
Up button and subtracted for the Down button, so while no clamping
occurs the value after the press and `r` repeats is the initial value
plus (Up) or minus (Down) stepAmount times the sum of the multipliers,
and the repeat counter ends at `r`. -/
theorem numberBox_acceleration (nb : NUMBER_BOX) (x y : Int) (r : Nat)
    (hstep : 0 ≤ nb.stepAmount) :
    (numberBoxPressAt nb.centerX nb.centerY nb.width nb.height
        ⟨TouchEventType.pushedEvent, x, y⟩ = some NumberBoxPress.upPress →
      nb.minimumValue ≤ nb.value →
      nb.value + nb.stepAmount * (numberBoxDeltaSum r : Int) ≤
        nb.maximumValue →
      runNumberBox nb 0 (⟨TouchEventType.pushedEvent, x, y⟩ ::
          List.replicate r ⟨TouchEventType.repeatEvent, x, y⟩) =
        ({ nb with value := nb.value +
            nb.stepAmount * (numberBoxDeltaSum r : Int) }, r)) ∧
    (numberBoxPressAt nb.centerX nb.centerY nb.width nb.height
        ⟨TouchEventType.pushedEvent, x, y⟩ = some NumberBoxPress.downPress →
      nb.value ≤ nb.maximumValue →
      nb.minimumValue ≤ nb.value -
        nb.stepAmount * (numberBoxDeltaSum r : Int) →
      runNumberBox nb 0 (⟨TouchEventType.pushedEvent, x, y⟩ ::
          List.replicate r ⟨TouchEventType.repeatEvent, x, y⟩) =
        ({ nb with value := nb.value -
            nb.stepAmount * (numberBoxDeltaSum r : Int) }, r)) :=
  ⟨fun hup hmin hroom => numberBoxAccelUp nb x y r hup hstep hmin hroom,
    fun hdown hmax hroom => numberBoxAccelDown nb x y r hdown hstep hmax hroom⟩

/-- Witness for C7: with stepAmount 2, a press on the Up button held
through 16 repeats raises the value by 36 (2 for the press and each of
repeats 1..15, then 4 for repeat 16 whose multiplier is 2), strictly
more than 16 times 2; the same hold on the Down button of a box at 100
lowers the value by the same 36, down to 64. -/
theorem numberBox_acceleration_witness :
    (runNumberBox ⟨"n", 0, 0, 100, 2, 100, 100, 200, 40⟩ 0
        (⟨TouchEventType.pushedEvent, 180, 100⟩ ::
          List.replicate 16 ⟨TouchEventType.repeatEvent, 180, 100⟩)).1.value =
      36 ∧
    (runNumberBox ⟨"n", 100, 0, 100, 2, 100, 100, 200, 40⟩ 0
        (⟨TouchEventType.pushedEvent, 20, 100⟩ ::
          List.replicate 16 ⟨TouchEventType.repeatEvent, 20, 100⟩)).1.value =
      64 ∧ (16 * 2 : Int) < 36 := by
  have hu := (numberBox_acceleration ⟨"n", 0, 0, 100, 2, 100, 100, 200, 40⟩
    180 100 16 (by norm_num)).1 (by decide) (by norm_num) (by decide)
  have hd := (numberBox_acceleration ⟨"n", 100, 0, 100, 2, 100, 100, 200, 40⟩
    20 100 16 (by norm_num)).2 (by decide) (by norm_num) (by decide)
  rw [hu, hd]
  refine ⟨by decide, by decide, by norm_num⟩

/-- Modelled from the spec: the Selection Box record of the README. -/
structure SELECTION_BOX where
  labelText : String
  value : Int
  choice0Text : String
  choice1Text : String
  choice2Text : String
  choice3Text : String
  centerX : Int
  centerY : Int
  width : Int
  height : Int

/-- Modelled from the spec: the number of selectable cells, 1 to 4,
inferred by scanning the choice-text fields for the first empty string. -/
def selectionBoxChoiceCount (sb : SELECTION_BOX) : Nat :=
  if sb.choice1Text = "" then 1
  else if sb.choice2Text = "" then 2
  else if sb.choice3Text = "" then 3
  else 4

/-- Modelled from the spec: the equal-width cell partition of the box: the
cell index under an x coordinate, 0 for the leftmost cell. -/
def selectionBoxCellAt (sb : SELECTION_BOX) (x : Int) : Int :=
  (x - (sb.centerX - sb.width / 2)) * (selectionBoxChoiceCount sb : Int) /
    sb.width

/-- Modelled from the spec: one call of `checkForSelectionBoxTouched`: on
a Pressed event inside the box the pressed cell becomes the value;
returns the updated box and true iff the value changed (re-pressing the
selected cell only redraws and returns false). -/
def checkForSelectionBoxTouched (sb : SELECTION_BOX) (ev : TouchEvent) :
    SELECTION_BOX × Bool :=
  if ev.eventType = TouchEventType.pushedEvent ∧
      sb.centerX - sb.width / 2 ≤ ev.x ∧ ev.x ≤ sb.centerX + sb.width / 2 ∧
      sb.centerY - sb.height / 2 ≤ ev.y ∧ ev.y ≤ sb.centerY + sb.height / 2 then
    if selectionBoxCellAt sb ev.x = sb.value then (sb, false)
    else ({ sb with value := selectionBoxCellAt sb ev.x }, true)
  else (sb, false)

/-- C8: for a Pressed event inside the Selection Box,
`checkForSelectionBoxTouched` returns true iff the pressed cell differs
from the previously selected cell (false when the selected cell is
re-pressed), after which the value is the pressed cell's index, an
integer in [0, choiceCount) with 0 the leftmost cell; the cell count is
between 1 and 4 and is determined by the first empty choice text. -/
theorem selectionBox_touched_iff (sb : SELECTION_BOX) (ev : TouchEvent)
    (hpush : ev.eventType = TouchEventType.pushedEvent)
    (hxl : sb.centerX - sb.width / 2 ≤ ev.x)
    (hxr : ev.x < sb.centerX - sb.width / 2 + sb.width)
    (hyt : sb.centerY - sb.height / 2 ≤ ev.y)
    (hyb : ev.y ≤ sb.centerY + sb.height / 2)
    (hw : 0 < sb.width) :
    ((checkForSelectionBoxTouched sb ev).2 = true ↔
      selectionBoxCellAt sb ev.x ≠ sb.value) ∧
    (checkForSelectionBoxTouched sb ev).1.value = selectionBoxCellAt sb ev.x ∧
    (0 ≤ selectionBoxCellAt sb ev.x ∧
      selectionBoxCellAt sb ev.x < (selectionBoxChoiceCount sb : Int)) ∧
    (1 ≤ selectionBoxChoiceCount sb ∧ selectionBoxChoiceCount sb ≤ 4) ∧
    (sb.choice1Text = "" → selectionBoxChoiceCount sb = 1) ∧
    (sb.choice1Text ≠ "" → sb.choice2Text = "" →
      selectionBoxChoiceCount sb = 2) ∧
    (sb.choice1Text ≠ "" → sb.choice2Text ≠ "" → sb.choice3Text = "" →
      selectionBoxChoiceCount sb = 3) ∧
    (sb.choice1Text ≠ "" → sb.choice2Text ≠ "" → sb.choice3Text ≠ "" →
      selectionBoxChoiceCount sb = 4) := by
  have hin : ev.eventType = TouchEventType.pushedEvent ∧
      sb.centerX - sb.width / 2 ≤ ev.x ∧ ev.x ≤ sb.centerX + sb.width / 2 ∧
      sb.centerY - sb.height / 2 ≤ ev.y ∧ ev.y ≤ sb.centerY + sb.height / 2 := by
    refine ⟨hpush, hxl, ?_, hyt, hyb⟩
    have hdiv : sb.width / 2 + sb.width / 2 ≤ sb.width := by omega
    omega
  have hcnt1 : 1 ≤ selectionBoxChoiceCount sb := by
    rw [selectionBoxChoiceCount]
    split
    · norm_num
    · split
      · norm_num
      · split <;> norm_num
  have hcnt4 : selectionBoxChoiceCount sb ≤ 4 := by
    rw [selectionBoxChoiceCount]
    split
    · norm_num
    · split
      · norm_num
      · split <;> norm_num
  have hcell0 : 0 ≤ selectionBoxCellAt sb ev.x := by
    rw [selectionBoxCellAt]
    apply Int.ediv_nonneg
    · apply mul_nonneg
      · omega
      · exact_mod_cast Nat.zero_le _
    · omega
  have hcellLt : selectionBoxCellAt sb ev.x <
      (selectionBoxChoiceCount sb : Int) := by
    rw [selectionBoxCellAt]
    apply Int.ediv_lt_of_lt_mul hw
    have hx1 : ev.x - (sb.centerX - sb.width / 2) ≤ sb.width - 1 := by omega
    have hc0 : (0 : Int) < (selectionBoxChoiceCount sb : Int) := by
      exact_mod_cast hcnt1
    nlinarith
  constructor
  · rw [checkForSelectionBoxTouched, if_pos hin]
    by_cases hsame : selectionBoxCellAt sb ev.x = sb.value
    · rw [if_pos hsame]
      simp [hsame]
    · rw [if_neg hsame]
      simp [hsame]
  refine ⟨?_, ⟨hcell0, hcellLt⟩, ⟨hcnt1, hcnt4⟩, ?_, ?_, ?_, ?_⟩
  · rw [checkForSelectionBoxTouched, if_pos hin]
    by_cases hsame : selectionBoxCellAt sb ev.x = sb.value
    · rw [if_pos hsame]
      exact hsame.symm
    · rw [if_neg hsame]
  · intro h1
    rw [selectionBoxChoiceCount, if_pos h1]
  · intro h1 h2
    rw [selectionBoxChoiceCount, if_neg h1, if_pos h2]
  · intro h1 h2 h3
    rw [selectionBoxChoiceCount, if_neg h1, if_neg h2, if_pos h3]
  · intro h1 h2 h3
    rw [selectionBoxChoiceCount, if_neg h1, if_neg h2, if_neg h3]

/-- Witness for C8: a three-choice box currently at value 0; pressing in
the middle cell returns true and selects cell 1; all cell-count facts
evaluate on the concrete box. -/
theorem selectionBox_touched_iff_witness :
    ((checkForSelectionBoxTouched
        ⟨"power", 0, "Low", "Medium", "High", "", 125, 100, 240, 33⟩
        ⟨TouchEventType.pushedEvent, 100, 100⟩).2 = true ↔
      selectionBoxCellAt
        ⟨"power", 0, "Low", "Medium", "High", "", 125, 100, 240, 33⟩ 100 ≠ 0) ∧
    (checkForSelectionBoxTouched
        ⟨"power", 0, "Low", "Medium", "High", "", 125, 100, 240, 33⟩
        ⟨TouchEventType.pushedEvent, 100, 100⟩).1.value =
      selectionBoxCellAt
        ⟨"power", 0, "Low", "Medium", "High", "", 125, 100, 240, 33⟩ 100 ∧
    (0 ≤ selectionBoxCellAt
        ⟨"power", 0, "Low", "Medium", "High", "", 125, 100, 240, 33⟩ 100 ∧
      selectionBoxCellAt
        ⟨"power", 0, "Low", "Medium", "High", "", 125, 100, 240, 33⟩ 100 <
        (selectionBoxChoiceCount
          ⟨"power", 0, "Low", "Medium", "High", "", 125, 100, 240, 33⟩ : Int)) ∧
    (1 ≤ selectionBoxChoiceCount
        ⟨"power", 0, "Low", "Medium", "High", "", 125, 100, 240, 33⟩ ∧
      selectionBoxChoiceCount
        ⟨"power", 0, "Low", "Medium", "High", "", 125, 100, 240, 33⟩ ≤ 4) ∧
    ((⟨"power", 0, "Low", "Medium", "High", "", 125, 100, 240, 33⟩ :
        SELECTION_BOX).choice1Text = "" →
      selectionBoxChoiceCount
        ⟨"power", 0, "Low", "Medium", "High", "", 125, 100, 240, 33⟩ = 1) ∧
    ((⟨"power", 0, "Low", "Medium", "High", "", 125, 100, 240, 33⟩ :
        SELECTION_BOX).choice1Text ≠ "" →
      (⟨"power", 0, "Low", "Medium", "High", "", 125, 100, 240, 33⟩ :
        SELECTION_BOX).choice2Text = "" →
      selectionBoxChoiceCount
        ⟨"power", 0, "Low", "Medium", "High", "", 125, 100, 240, 33⟩ = 2) ∧
    ((⟨"power", 0, "Low", "Medium", "High", "", 125, 100, 240, 33⟩ :
        SELECTION_BOX).choice1Text ≠ "" →
      (⟨"power", 0, "Low", "Medium", "High", "", 125, 100, 240, 33⟩ :
        SELECTION_BOX).choice2Text ≠ "" →
      (⟨"power", 0, "Low", "Medium", "High", "", 125, 100, 240, 33⟩ :
        SELECTION_BOX).choice3Text = "" →
      selectionBoxChoiceCount
        ⟨"power", 0, "Low", "Medium", "High", "", 125, 100, 240, 33⟩ = 3) ∧
    ((⟨"power", 0, "Low", "Medium", "High", "", 125, 100, 240, 33⟩ :
        SELECTION_BOX).choice1Text ≠ "" →
      (⟨"power", 0, "Low", "Medium", "High", "", 125, 100, 240, 33⟩ :
        SELECTION_BOX).choice2Text ≠ "" →
      (⟨"power", 0, "Low", "Medium", "High", "", 125, 100, 240, 33⟩ :
        SELECTION_BOX).choice3Text ≠ "" →
      selectionBoxChoiceCount
        ⟨"power", 0, "Low", "Medium", "High", "", 125, 100, 240, 33⟩ = 4) :=
  selectionBox_touched_iff
    ⟨"power", 0, "Low", "Medium", "High", "", 125, 100, 240, 33⟩
    ⟨TouchEventType.pushedEvent, 100, 100⟩ rfl (by norm_num) (by norm_num)
    (by norm_num) (by norm_num) (by norm_num)

/-- Modelled from the spec: the keys of the numeric keypad screen: ten
digits, the decimal point, the sign toggle, backspace, OK and Cancel. -/
inductive KeypadKey
  | digitKey (d : Nat)
  | decimalPointKey
  | signKey
  | backKey
  | okKey
  | cancelKey
  deriving DecidableEq

/-- Modelled from the spec: the text-entry buffer of the numeric keypad: a
sign, the digits before the decimal point and, once the point has been
typed, the digits after it. -/
structure KeypadEntry where
  neg : Bool
  intDigits : List Nat
  fracDigits : Option (List Nat)
  deriving DecidableEq

/-- The empty entry buffer shown when the keypad opens. -/
def keypadInitialEntry : KeypadEntry := ⟨false, [], none⟩

/-- The number denoted by a list of decimal digits. -/
def digitsToNat (l : List Nat) : Nat := l.foldl (fun a d => a * 10 + d) 0

/-- Modelled from the spec: the numeric value currently shown in the
entry buffer. -/
def KeypadEntry.value (e : KeypadEntry) : ℚ :=
  let mag : ℚ := match e.fracDigits with
    | none => (digitsToNat e.intDigits : ℚ)
    | some l => (digitsToNat e.intDigits : ℚ) +
        (digitsToNat l : ℚ) / 10 ^ l.length
  if e.neg then -mag else mag

/-- Modelled from the spec: buffer editing: append a digit, a single
decimal point enforced, sign toggle only as the first character, and
backspace. -/
def keypadEdit (e : KeypadEntry) (k : KeypadKey) : KeypadEntry :=
  match k with
  | KeypadKey.digitKey d =>
    match e.fracDigits with
    | some l => { e with fracDigits := some (l ++ [d]) }
    | none => { e with intDigits := e.intDigits ++ [d] }
  | KeypadKey.decimalPointKey =>
    match e.fracDigits with
    | some _ => e
    | none => { e with fracDigits := some [] }
  | KeypadKey.signKey =>
    if e.intDigits = [] ∧ e.fracDigits = none then { e with neg := !e.neg }
    else e
  | KeypadKey.backKey =>
    match e.fracDigits with
    | some [] => { e with fracDigits := none }
    | some l => { e with fracDigits := some l.dropLast }
    | none => { e with intDigits := e.intDigits.dropLast }
  | _ => e

/-- Modelled from the spec: how long the out-of-range message stays on
the title bar before it reverts: a fixed 1.5 seconds. -/
def KEYPAD_ERROR_DISPLAY_MS : Nat := 1500

/-- Outcome of one key press inside the numericKeyPad modal loop. -/
inductive KeypadStepResult
  | editing (st : KeypadEntry) (errorShownMs : Nat)
  | finished (okPressed : Bool) (result : ℚ)
  deriving DecidableEq

/-- Modelled from the spec: one key press of the `numericKeyPad` modal
loop.  OK validates the entered number against [minValue, maxValue] and
rejects out-of-range input by showing a title-bar message for 1.5 s,
leaving the buffer unchanged; Cancel finishes with the caller's value
unmodified; any other key edits the buffer. -/
def numericKeyPadKey (minValue maxValue initial : ℚ) (st : KeypadEntry)
    (k : KeypadKey) : KeypadStepResult :=
  match k with
  | KeypadKey.okKey =>
    if minValue ≤ st.value ∧ st.value ≤ maxValue then
      KeypadStepResult.finished true st.value
    else
      KeypadStepResult.editing st KEYPAD_ERROR_DISPLAY_MS
  | KeypadKey.cancelKey => KeypadStepResult.finished false initial
  | _ => KeypadStepResult.editing (keypadEdit st k) 0

/-- Modelled from the spec: the `numericKeyPad` modal loop over a
sequence of key presses; `none` while the user is still editing. -/
def runNumericKeyPad (minValue maxValue initial : ℚ) (st : KeypadEntry) :
    List KeypadKey → Option (Bool × ℚ)
  | [] => none
  | k :: rest =>
    match numericKeyPadKey minValue maxValue initial st k with
    | KeypadStepResult.finished ok v => some (ok, v)
    | KeypadStepResult.editing st' _ =>
      runNumericKeyPad minValue maxValue initial st' rest

/-- C9: `numericKeyPad` returns true if and only if the user presses OK
with the entered number inside [minValue, maxValue]: true is returned
only by such an OK press and carries the entered number (soundness);
false is returned only by Cancel with the caller's value unmodified
(soundness); an OK press on an out-of-range number does not finish but
re-enters editing with the buffer unchanged and the out-of-range
title-bar message shown for the fixed 1.5 s; and, conversely, an OK
press on an in-range buffer does finish true with the entered number
(both as a single step and as the run from that press on), while a
Cancel press always finishes false with the caller's initial value
(again as a step and as the run). -/
theorem numericKeyPad_validation :
    (∀ (minValue maxValue initial : ℚ) (keys : List KeypadKey)
      (st : KeypadEntry) (v : ℚ),
      runNumericKeyPad minValue maxValue initial st keys = some (true, v) →
      minValue ≤ v ∧ v ≤ maxValue) ∧
    (∀ (minValue maxValue initial : ℚ) (keys : List KeypadKey)
      (st : KeypadEntry) (v : ℚ),
      runNumericKeyPad minValue maxValue initial st keys = some (false, v) →
      v = initial) ∧
    (∀ (minValue maxValue initial : ℚ) (st : KeypadEntry),
      ¬ (minValue ≤ st.value ∧ st.value ≤ maxValue) →
      numericKeyPadKey minValue maxValue initial st KeypadKey.okKey =
        KeypadStepResult.editing st KEYPAD_ERROR_DISPLAY_MS) ∧
    (∀ (minValue maxValue initial : ℚ) (st : KeypadEntry),
      minValue ≤ st.value → st.value ≤ maxValue →
      numericKeyPadKey minValue maxValue initial st KeypadKey.okKey =
        KeypadStepResult.finished true st.value) ∧
    (∀ (minValue maxValue initial : ℚ) (st : KeypadEntry)
      (rest : List KeypadKey),
      minValue ≤ st.value → st.value ≤ maxValue →
      runNumericKeyPad minValue maxValue initial st
        (KeypadKey.okKey :: rest) = some (true, st.value)) ∧
    (∀ (minValue maxValue initial : ℚ) (st : KeypadEntry),
      numericKeyPadKey minValue maxValue initial st KeypadKey.cancelKey =
        KeypadStepResult.finished false initial) ∧
    (∀ (minValue maxValue initial : ℚ) (st : KeypadEntry)
      (rest : List KeypadKey),
      runNumericKeyPad minValue maxValue initial st
        (KeypadKey.cancelKey :: rest) = some (false, initial)) := by
  refine ⟨?_, ?_, ?_, ?_, ?_, ?_, ?_⟩
  · intro minValue maxValue initial keys
    induction keys with
    | nil => intro st v h; cases h
    | cons k rest ih =>
      intro st v h
      rw [runNumericKeyPad] at h
      cases k with
      | okKey =>
        rw [numericKeyPadKey] at h
        by_cases hc : minValue ≤ st.value ∧ st.value ≤ maxValue
        · rw [if_pos hc] at h
          simp only [Option.some.injEq, Prod.mk.injEq] at h
          rcases h with ⟨_, hv⟩
          rw [← hv]
          exact hc
        · rw [if_neg hc] at h
          exact ih _ _ h
      | cancelKey =>
        rw [numericKeyPadKey] at h
        simp only [Option.some.injEq, Prod.mk.injEq] at h
        cases h.1
      | digitKey d => exact ih _ _ h
      | decimalPointKey => exact ih _ _ h
      | signKey => exact ih _ _ h
      | backKey => exact ih _ _ h
  · intro minValue maxValue initial keys
    induction keys with
    | nil => intro st v h; cases h
    | cons k rest ih =>
      intro st v h
      rw [runNumericKeyPad] at h
      cases k with
      | okKey =>
        rw [numericKeyPadKey] at h
        by_cases hc : minValue ≤ st.value ∧ st.value ≤ maxValue
        · rw [if_pos hc] at h
          simp only [Option.some.injEq, Prod.mk.injEq] at h
          cases h.1
        · rw [if_neg hc] at h
          exact ih _ _ h
      | cancelKey =>
        rw [numericKeyPadKey] at h
        simp only [Option.some.injEq, Prod.mk.injEq] at h
        exact h.2.symm
      | digitKey d => exact ih _ _ h
      | decimalPointKey => exact ih _ _ h
      | signKey => exact ih _ _ h
      | backKey => exact ih _ _ h
  · intro minValue maxValue initial st hout
    rw [numericKeyPadKey, if_neg hout]
  · intro minValue maxValue initial st hlo hhi
    rw [numericKeyPadKey, if_pos ⟨hlo, hhi⟩]
  · intro minValue maxValue initial st rest hlo hhi
    rw [runNumericKeyPad, numericKeyPadKey, if_pos ⟨hlo, hhi⟩]
  · intro minValue maxValue initial st
    rw [numericKeyPadKey]
  · intro minValue maxValue initial st rest
    rw [runNumericKeyPad, numericKeyPadKey]

/-- Witness for C9, following the spec's concrete scenario with bounds
[20, 100]: typing "25" then OK finishes true with 25 inside the bounds;
typing "15", pressing OK (rejected: buffer "15" kept, message shown for
1500 ms) and then Cancel finishes false with the caller's value 50
unmodified; the OK press on the "15" buffer is itself the rejecting
editing step; the OK press on the in-range "25" buffer finishes true
with 25, as a step and as a run; and Cancel on the "15" buffer finishes
false with 50, as a step and as a run. -/
theorem numericKeyPad_validation_witness :
    ((20 : ℚ) ≤ 25 ∧ (25 : ℚ) ≤ 100) ∧ (50 : ℚ) = 50 ∧
    (numericKeyPadKey 20 100 50 ⟨false, [1, 5], none⟩ KeypadKey.okKey =
      KeypadStepResult.editing ⟨false, [1, 5], none⟩
        KEYPAD_ERROR_DISPLAY_MS) ∧
    (numericKeyPadKey 20 100 50 ⟨false, [2, 5], none⟩ KeypadKey.okKey =
      KeypadStepResult.finished true 25) ∧
    (runNumericKeyPad 20 100 50 ⟨false, [2, 5], none⟩ [KeypadKey.okKey] =
      some (true, 25)) ∧
    (numericKeyPadKey 20 100 50 ⟨false, [1, 5], none⟩ KeypadKey.cancelKey =
      KeypadStepResult.finished false 50) ∧
    (runNumericKeyPad 20 100 50 ⟨false, [1, 5], none⟩ [KeypadKey.cancelKey] =
      some (false, 50)) := by
  have h25 : runNumericKeyPad 20 100 50 keypadInitialEntry
      [KeypadKey.digitKey 2, KeypadKey.digitKey 5, KeypadKey.okKey] =
      some (true, 25) := by
    norm_num [runNumericKeyPad, numericKeyPadKey, keypadEdit,
      keypadInitialEntry, KeypadEntry.value, digitsToNat]
  have h15 : runNumericKeyPad 20 100 50 keypadInitialEntry
      [KeypadKey.digitKey 1, KeypadKey.digitKey 5, KeypadKey.okKey,
        KeypadKey.cancelKey] = some (false, 50) := by
    norm_num [runNumericKeyPad, numericKeyPadKey, keypadEdit,
      keypadInitialEntry, KeypadEntry.value, digitsToNat]
  have hv25 : KeypadEntry.value ⟨false, [2, 5], none⟩ = 25 := by
    norm_num [KeypadEntry.value, digitsToNat]
  have hlo : (20 : ℚ) ≤ KeypadEntry.value ⟨false, [2, 5], none⟩ := by
    rw [hv25]; norm_num
  have hhi : KeypadEntry.value ⟨false, [2, 5], none⟩ ≤ (100 : ℚ) := by
    rw [hv25]; norm_num
  have h4 := numericKeyPad_validation.2.2.2.1 20 100 50
    ⟨false, [2, 5], none⟩ hlo hhi
  have h5 := numericKeyPad_validation.2.2.2.2.1 20 100 50
    ⟨false, [2, 5], none⟩ [] hlo hhi
  rw [hv25] at h4 h5
  refine ⟨numericKeyPad_validation.1 20 100 50 _ keypadInitialEntry 25 h25,
    numericKeyPad_validation.2.1 20 100 50 _ keypadInitialEntry 50 h15,
    numericKeyPad_validation.2.2.1 20 100 50 ⟨false, [1, 5], none⟩ ?_,
    h4, h5,
    numericKeyPad_validation.2.2.2.2.2.1 20 100 50 ⟨false, [1, 5], none⟩,
    numericKeyPad_validation.2.2.2.2.2.2 20 100 50 ⟨false, [1, 5], none⟩ []⟩
  norm_num [KeypadEntry.value, digitsToNat]

/-- Menu item types of the library's menu tables. -/
inductive MenuItemType
  | mainMenuHeader
  | subMenuHeader
  | command
  | toggle
  | subMenuItem
  | endOfMenu
  deriving DecidableEq

/-- Modelled from the spec: the MENU_COLUMNS_1 constant: one column. -/
def MENU_COLUMNS_1 : Nat := 1

/-- Modelled from the spec: the MENU_COLUMNS_2 constant: two columns. -/
def MENU_COLUMNS_2 : Nat := 2

/-- Modelled from the spec: the MENU_COLUMNS_3 constant: three columns. -/
def MENU_COLUMNS_3 : Nat := 3

/-- Modelled from the spec: the MENU_COLUMNS_4 constant: four columns. -/
def MENU_COLUMNS_4 : Nat := 4

/-- One row of a menu table.  The C third field (a union of a column
count and a callback pointer) is modelled by the column count alone, and
the fourth field (a menu pointer or NULL) by an optional menu id. -/
structure MENU_ITEM where
  itemType : MenuItemType
  text : String
  columns : Nat
  linkedMenu : Option Nat

/-- The `mainMenu` table of the "Example Three - Menus with Columns"
sketch, translated from the source (menu id 0 denotes `mainMenu`
itself). -/
def exampleThreeMainMenu : List MENU_ITEM :=
  [⟨MenuItemType.mainMenuHeader, "Example Three - Menus with Columns",
      MENU_COLUMNS_2, some 0⟩,
    ⟨MenuItemType.command, "Count to one", 0, none⟩,
    ⟨MenuItemType.command, "Count to two", 0, none⟩,
    ⟨MenuItemType.command, "Count to three", 0, none⟩,
    ⟨MenuItemType.command, "Count to four", 0, none⟩,
    ⟨MenuItemType.command, "Count to five", 0, none⟩,
    ⟨MenuItemType.command, "Count to six", 0, none⟩,
    ⟨MenuItemType.endOfMenu, "", 0, none⟩]

/-- Modelled from the spec: the number of selectable items of a menu
table: everything between the header row and the EndOfMenu sentinel. -/
def menuSelectableItemCount (t : List MENU_ITEM) : Nat :=
  ((t.drop 1).takeWhile
    (fun it => decide (it.itemType ≠ MenuItemType.endOfMenu))).length

/-- The column count requested by the header row of a menu table. -/
def menuColumnsOf (t : List MENU_ITEM) : Nat :=
  match t with
  | [] => 1
  | h :: _ => h.columns

/-- Modelled from the spec: the fixed 10 px padding between the menu
buttons and the display-space edges. -/
def MENU_PADDING_PX : ℚ := 10

/-- Modelled from the spec: the fixed 10 px gap between adjacent menu
buttons. -/
def MENU_BUTTON_GAP_PX : ℚ := 10

/-- Modelled from the spec: the number of button rows:
ceil(count / columns). -/
def menuRowCount (n c : Nat) : Nat := (n + c - 1) / c

/-- Modelled from the spec: the common button width: the display-space
width minus the two side paddings and the inter-column gaps, divided
evenly across the columns. -/
def menuButtonWidth (dsWidth : ℚ) (c : Nat) : ℚ :=
  (dsWidth - 2 * MENU_PADDING_PX - ((c : ℚ) - 1) * MENU_BUTTON_GAP_PX) /
    (c : ℚ)

/-- Modelled from the spec: the common button height: the display-space
height minus the two paddings and the inter-row gaps, divided evenly
across the rows. -/
def menuButtonHeight (dsHeight : ℚ) (rows : Nat) : ℚ :=
  (dsHeight - 2 * MENU_PADDING_PX - ((rows : ℚ) - 1) * MENU_BUTTON_GAP_PX) /
    (rows : ℚ)

/-- The number of buttons placed in row `r` (0-based): a full `c` except
in the last row, which holds the remaining items. -/
def menuButtonsInRow (n c r : Nat) : Nat :=
  if r + 1 = menuRowCount n c then n - c * r else c

/-- The width spanned by a row of `k` buttons with its inner gaps. -/
def menuRowWidth (bw : ℚ) (k : Nat) : ℚ :=
  (k : ℚ) * bw + ((k : ℚ) - 1) * MENU_BUTTON_GAP_PX

/-- A button rectangle: top-left corner plus size, in pixels. -/
structure MenuButtonRect where
  x : ℚ
  y : ℚ
  w : ℚ
  h : ℚ

/-- Modelled from the spec: the rectangle of button `i` (0-based) of a
menu of `n` buttons in `c` columns inside the display space: buttons are
laid out row-major, each row is centered horizontally (for full rows
this puts the side margins at exactly the edge padding) and rows are
stacked from the top padding downward. -/
def menuButtonRect (dsX dsY dsWidth dsHeight : ℚ) (n c i : Nat) :
    MenuButtonRect :=
  let rows := menuRowCount n c
  let bw := menuButtonWidth dsWidth c
  let bh := menuButtonHeight dsHeight rows
  let r := i / c
  let k := menuButtonsInRow n c r
  { x := dsX + (dsWidth - menuRowWidth bw k) / 2 +
      ((i % c : Nat) : ℚ) * (bw + MENU_BUTTON_GAP_PX),
    y := dsY + MENU_PADDING_PX + ((r : Nat) : ℚ) * (bh + MENU_BUTTON_GAP_PX),
    w := bw,
    h := bh }

/-- Two rectangles do not overlap: they are separated along an axis. -/
def menuRectsDisjoint (r1 r2 : MenuButtonRect) : Prop :=
  r1.x + r1.w ≤ r2.x ∨ r2.x + r2.w ≤ r1.x ∨
    r1.y + r1.h ≤ r2.y ∨ r2.y + r2.h ≤ r1.y

theorem menuButtonWidth_mul (dsWidth : ℚ) (c : Nat) (hc : 1 ≤ c) :
    (c : ℚ) * menuButtonWidth dsWidth c =
      dsWidth - 2 * MENU_PADDING_PX - ((c : ℚ) - 1) * MENU_BUTTON_GAP_PX := by
  rw [menuButtonWidth, mul_comm, div_mul_cancel₀]
  have hpos : 0 < c := hc
  exact_mod_cast hpos.ne'

theorem menuButtonHeight_mul (dsHeight : ℚ) (rows : Nat) (hr : 1 ≤ rows) :
    (rows : ℚ) * menuButtonHeight dsHeight rows =
      dsHeight - 2 * MENU_PADDING_PX - ((rows : ℚ) - 1) * MENU_BUTTON_GAP_PX := by
  rw [menuButtonHeight, mul_comm, div_mul_cancel₀]
  have hpos : 0 < rows := hr
  exact_mod_cast hpos.ne'

theorem menuRowCount_pos (n c : Nat) (hn : 1 ≤ n) (hc : 1 ≤ c) :
    1 ≤ menuRowCount n c := by
  rw [menuRowCount]
  rw [Nat.le_div_iff_mul_le (by omega)]
  omega

theorem menuRowWidth_full (dsWidth : ℚ) (c : Nat) (hc : 1 ≤ c) :
    menuRowWidth (menuButtonWidth dsWidth c) c =
      dsWidth - 2 * MENU_PADDING_PX := by
  rw [menuRowWidth, menuButtonWidth_mul dsWidth c hc]
  ring

/-- C4: the menu layout engine, for any button count n with 1 or more
buttons and 1 to 4 columns: the row count is ceil(n / c); all button
rectangles share one width and one height; distinct buttons never
overlap; horizontally adjacent buttons in a row are separated by exactly
the 10 px gap at equal y, rows are stacked at a pitch of exactly the
button height plus the 10 px gap; the top row starts at the 10 px top
padding and the last row ends at the 10 px bottom padding; every full
row starts and ends at the 10 px side paddings, so rectangles plus gaps
plus padding exactly span the display space; every row (in particular a
partial last row) is centered: its left and right margins are equal; and
the 6-item 2-column "Example Three" table yields 3 full rows of 2. -/
theorem menuLayout_geometry (dsX dsY dsWidth dsHeight : ℚ) (n c : Nat)
    (hn : 1 ≤ n) (hc : 1 ≤ c) (hc4 : c ≤ 4)
    (hbw : 0 ≤ menuButtonWidth dsWidth c)
    (hbh : 0 ≤ menuButtonHeight dsHeight (menuRowCount n c)) :
    (n ≤ c * menuRowCount n c ∧ c * (menuRowCount n c - 1) < n) ∧
    (∀ i j : Nat,
      (menuButtonRect dsX dsY dsWidth dsHeight n c i).w =
        (menuButtonRect dsX dsY dsWidth dsHeight n c j).w ∧
      (menuButtonRect dsX dsY dsWidth dsHeight n c i).h =
        (menuButtonRect dsX dsY dsWidth dsHeight n c j).h) ∧
    (∀ i j : Nat, i < n → j < n → i ≠ j →
      menuRectsDisjoint (menuButtonRect dsX dsY dsWidth dsHeight n c i)
        (menuButtonRect dsX dsY dsWidth dsHeight n c j)) ∧
    (∀ i : Nat, (i + 1) / c = i / c →
      (menuButtonRect dsX dsY dsWidth dsHeight n c (i + 1)).x =
        (menuButtonRect dsX dsY dsWidth dsHeight n c i).x +
          menuButtonWidth dsWidth c + MENU_BUTTON_GAP_PX ∧
      (menuButtonRect dsX dsY dsWidth dsHeight n c (i + 1)).y =
        (menuButtonRect dsX dsY dsWidth dsHeight n c i).y) ∧
    (∀ i : Nat,
      (menuButtonRect dsX dsY dsWidth dsHeight n c (i + c)).y =
        (menuButtonRect dsX dsY dsWidth dsHeight n c i).y +
          menuButtonHeight dsHeight (menuRowCount n c) + MENU_BUTTON_GAP_PX) ∧
    (∀ i : Nat, i < c →
      (menuButtonRect dsX dsY dsWidth dsHeight n c i).y =
        dsY + MENU_PADDING_PX) ∧
    (∀ i : Nat, i / c + 1 = menuRowCount n c →
      (menuButtonRect dsX dsY dsWidth dsHeight n c i).y +
        menuButtonHeight dsHeight (menuRowCount n c) =
        dsY + dsHeight - MENU_PADDING_PX) ∧
    (∀ i : Nat, menuButtonsInRow n c (i / c) = c →
      (i % c = 0 →
        (menuButtonRect dsX dsY dsWidth dsHeight n c i).x =
          dsX + MENU_PADDING_PX) ∧
      (i % c + 1 = c →
        (menuButtonRect dsX dsY dsWidth dsHeight n c i).x +
          menuButtonWidth dsWidth c = dsX + dsWidth - MENU_PADDING_PX)) ∧
    (∀ i : Nat, i % c = 0 →
      (menuButtonRect dsX dsY dsWidth dsHeight n c i).x - dsX =
        (dsX + dsWidth) -
          ((menuButtonRect dsX dsY dsWidth dsHeight n c i).x +
            menuRowWidth (menuButtonWidth dsWidth c)
              (menuButtonsInRow n c (i / c)))) ∧
    (menuSelectableItemCount exampleThreeMainMenu = 6 ∧
      menuColumnsOf exampleThreeMainMenu = 2 ∧ menuRowCount 6 2 = 3 ∧
      menuButtonsInRow 6 2 0 = 2 ∧ menuButtonsInRow 6 2 1 = 2 ∧
      menuButtonsInRow 6 2 2 = 2) := by
  have hg : MENU_BUTTON_GAP_PX = 10 := rfl
  have hp : MENU_PADDING_PX = 10 := rfl
  have hc0 : 0 < c := hc
  refine ⟨?_, ?_, ?_, ?_, ?_, ?_, ?_, ?_, ?_, ?_⟩
  · -- rows = ceil(n / c)
    simp only [menuRowCount]
    interval_cases c <;> omega
  · -- all rectangles share one size
    intro i j
    simp only [menuButtonRect]
    exact ⟨trivial, trivial⟩
  · -- no overlap
    intro i j hi hj hij
    rcases Nat.lt_trichotomy (i / c) (j / c) with hr | hr | hr
    · right; right; left
      simp only [menuButtonRect]
      have h1 : ((i / c : Nat) : ℚ) + 1 ≤ ((j / c : Nat) : ℚ) := by
        exact_mod_cast hr
      have h2 : (0 : ℚ) ≤
          menuButtonHeight dsHeight (menuRowCount n c) + MENU_BUTTON_GAP_PX := by
        rw [hg]; linarith
      nlinarith [mul_le_mul_of_nonneg_right h1 h2]
    · -- same row: columns differ
      have hmods : i % c ≠ j % c := by
        intro hmod
        apply hij
        have hdi := Nat.div_add_mod i c
        have hdj := Nat.div_add_mod j c
        rw [hr, hmod] at hdi
        omega
      rcases Nat.lt_or_ge (i % c) (j % c) with hcol | hcol
      · left
        simp only [menuButtonRect, hr]
        have h1 : ((i % c : Nat) : ℚ) + 1 ≤ ((j % c : Nat) : ℚ) := by
          exact_mod_cast hcol
        have h2 : (0 : ℚ) ≤
            menuButtonWidth dsWidth c + MENU_BUTTON_GAP_PX := by
          rw [hg]; linarith
        nlinarith [mul_le_mul_of_nonneg_right h1 h2]
      · have hcol' : j % c < i % c := by omega
        right; left
        simp only [menuButtonRect, hr]
        have h1 : ((j % c : Nat) : ℚ) + 1 ≤ ((i % c : Nat) : ℚ) := by
          exact_mod_cast hcol'
        have h2 : (0 : ℚ) ≤
            menuButtonWidth dsWidth c + MENU_BUTTON_GAP_PX := by
          rw [hg]; linarith
        nlinarith [mul_le_mul_of_nonneg_right h1 h2]
    · right; right; right
      simp only [menuButtonRect]
      have h1 : ((j / c : Nat) : ℚ) + 1 ≤ ((i / c : Nat) : ℚ) := by
        exact_mod_cast hr
      have h2 : (0 : ℚ) ≤
          menuButtonHeight dsHeight (menuRowCount n c) + MENU_BUTTON_GAP_PX := by
        rw [hg]; linarith
      nlinarith [mul_le_mul_of_nonneg_right h1 h2]
  · -- horizontal pitch inside a row
    intro i hrow
    have hmod : (i + 1) % c = i % c + 1 := by
      have hdi := Nat.div_add_mod i c
      have hdi1 := Nat.div_add_mod (i + 1) c
      rw [hrow] at hdi1
      omega
    simp only [menuButtonRect, hrow, hmod]
    constructor
    · push_cast
      ring
    · trivial
  · -- vertical pitch between rows
    intro i
    have hdiv : (i + c) / c = i / c + 1 := by
      rw [Nat.add_div_right i hc0]
    simp only [menuButtonRect, hdiv]
    push_cast
    ring
  · -- top padding
    intro i hi
    have hdiv : i / c = 0 := Nat.div_eq_of_lt hi
    simp only [menuButtonRect, hdiv]
    push_cast
    ring
  · -- bottom padding
    intro i hi
    have hrows1 : 1 ≤ menuRowCount n c := menuRowCount_pos n c hn hc
    have hmul := menuButtonHeight_mul dsHeight (menuRowCount n c) hrows1
    have hcast : ((i / c : Nat) : ℚ) = ((menuRowCount n c : Nat) : ℚ) - 1 := by
      have h' : ((i / c : Nat) : ℚ) + 1 = ((menuRowCount n c : Nat) : ℚ) := by
        exact_mod_cast hi
      linarith
    simp only [menuButtonRect, hcast]
    linear_combination hmul
  · -- side paddings of full rows
    intro i hk
    have hrw := menuRowWidth_full dsWidth c hc
    constructor
    · intro hcol
      simp only [menuButtonRect, hk, hcol, hrw]
      push_cast
      ring
    · intro hcol
      have hmul := menuButtonWidth_mul dsWidth c hc
      have hcast : ((i % c : Nat) : ℚ) = ((c : Nat) : ℚ) - 1 := by
        have h' : ((i % c : Nat) : ℚ) + 1 = ((c : Nat) : ℚ) := by
          exact_mod_cast hcol
        linarith
      simp only [menuButtonRect, hk, hrw, hcast]
      linear_combination hmul
  · -- every row is centered: left margin equals right margin
    intro i hcol
    simp only [menuButtonRect, hcol]
    push_cast
    ring
  · -- the Example Three table: 6 items, 2 columns, 3 full rows of 2
    exact ⟨by decide, by decide, by decide, by decide, by decide, by decide⟩

/-- Witness for C4: the Example Three menu (6 buttons, 2 columns) inside
a 320 by 190 display space. -/
theorem menuLayout_geometry_witness :
    ((6 ≤ 2 * menuRowCount 6 2 ∧ 2 * (menuRowCount 6 2 - 1) < 6) ∧
      (∀ i j : Nat,
        (menuButtonRect 0 50 320 190 6 2 i).w =
          (menuButtonRect 0 50 320 190 6 2 j).w ∧
        (menuButtonRect 0 50 320 190 6 2 i).h =
          (menuButtonRect 0 50 320 190 6 2 j).h) ∧
      (∀ i j : Nat, i < 6 → j < 6 → i ≠ j →
        menuRectsDisjoint (menuButtonRect 0 50 320 190 6 2 i)
          (menuButtonRect 0 50 320 190 6 2 j)) ∧
      (∀ i : Nat, (i + 1) / 2 = i / 2 →
        (menuButtonRect 0 50 320 190 6 2 (i + 1)).x =
          (menuButtonRect 0 50 320 190 6 2 i).x +
            menuButtonWidth 320 2 + MENU_BUTTON_GAP_PX ∧
        (menuButtonRect 0 50 320 190 6 2 (i + 1)).y =
          (menuButtonRect 0 50 320 190 6 2 i).y) ∧
      (∀ i : Nat,
        (menuButtonRect 0 50 320 190 6 2 (i + 2)).y =
          (menuButtonRect 0 50 320 190 6 2 i).y +
            menuButtonHeight 190 (menuRowCount 6 2) + MENU_BUTTON_GAP_PX) ∧
      (∀ i : Nat, i < 2 →
        (menuButtonRect 0 50 320 190 6 2 i).y = 50 + MENU_PADDING_PX) ∧
      (∀ i : Nat, i / 2 + 1 = menuRowCount 6 2 →
        (menuButtonRect 0 50 320 190 6 2 i).y +
          menuButtonHeight 190 (menuRowCount 6 2) =
          50 + 190 - MENU_PADDING_PX) ∧
      (∀ i : Nat, menuButtonsInRow 6 2 (i / 2) = 2 →
        (i % 2 = 0 →
          (menuButtonRect 0 50 320 190 6 2 i).x = 0 + MENU_PADDING_PX) ∧
        (i % 2 + 1 = 2 →
          (menuButtonRect 0 50 320 190 6 2 i).x + menuButtonWidth 320 2 =
            0 + 320 - MENU_PADDING_PX)) ∧
      (∀ i : Nat, i % 2 = 0 →
        (menuButtonRect 0 50 320 190 6 2 i).x - 0 =
          (0 + 320) - ((menuButtonRect 0 50 320 190 6 2 i).x +
            menuRowWidth (menuButtonWidth 320 2)
              (menuButtonsInRow 6 2 (i / 2)))) ∧
      (menuSelectableItemCount exampleThreeMainMenu = 6 ∧
        menuColumnsOf exampleThreeMainMenu = 2 ∧ menuRowCount 6 2 = 3 ∧
        menuButtonsInRow 6 2 0 = 2 ∧ menuButtonsInRow 6 2 1 = 2 ∧
        menuButtonsInRow 6 2 2 = 2)) :=
  menuLayout_geometry 0 50 320 190 6 2 (by norm_num) (by norm_num)
    (by norm_num)
    (by rw [menuButtonWidth]; norm_num [MENU_PADDING_PX, MENU_BUTTON_GAP_PX])
    (by rw [menuButtonHeight, show menuRowCount 6 2 = 3 from rfl]
        norm_num [MENU_PADDING_PX, MENU_BUTTON_GAP_PX])

/-- Modelled from the spec: a menu table's header as seen by the
back-button logic: whether the table is a sub menu, and the header's
fourth field (NULL or a link to a menu table, given by id). -/
structure MenuHeaderInfo where
  isSubMenu : Bool
  linkedMenu : Option Nat
  deriving DecidableEq

/-- Modelled from the spec: whether the title bar of a displayed menu
shows the Back button: a sub menu always shows it (it returns to the
parent), a main menu shows it exactly when the header's fourth field is
NULL. -/
def menuBackButtonShown (h : MenuHeaderInfo) : Bool :=
  if h.isSubMenu then true else h.linkedMenu.isNone

/-- What the menu engine does when the Back button is clicked. -/
inductive MenuBackOutcome
  | switchToTable (id : Nat)
  | exitMenuSystem
  | stayInMenu
  deriving DecidableEq

/-- Modelled from the spec: the response of the `displayAndExecuteMenu`
event loop to a click of the title bar's Back button: a sub menu
switches the current-table pointer to the parent stored in the header's
fourth field and redraws; a main menu whose fourth field is NULL makes
the whole menu system exit, returning control to the caller; a main menu
with a self link does nothing (its Back button is not even shown). -/
def menuBackStep (tables : Nat → MenuHeaderInfo) (currentTable : Nat) :
    MenuBackOutcome :=
  let h := tables currentTable
  if h.isSubMenu then
    match h.linkedMenu with
    | some parent => MenuBackOutcome.switchToTable parent
    | none => MenuBackOutcome.stayInMenu
  else
    match h.linkedMenu with
    | none => MenuBackOutcome.exitMenuSystem
    | some _ => MenuBackOutcome.stayInMenu

/-- C5: clicking Back on a sub menu switches the current table to the
parent stored in the header's fourth field; clicking Back on a main menu
whose fourth field is NULL exits the whole menu system to the caller
(and that main menu does show a Back button); a main menu with a self
link never exits and shows no Back button. -/
theorem menuBack_navigation (tables : Nat → MenuHeaderInfo) (cur : Nat) :
    ((tables cur).isSubMenu = true →
      ∀ p : Nat, (tables cur).linkedMenu = some p →
        menuBackStep tables cur = MenuBackOutcome.switchToTable p) ∧
    ((tables cur).isSubMenu = false → (tables cur).linkedMenu = none →
      menuBackStep tables cur = MenuBackOutcome.exitMenuSystem ∧
      menuBackButtonShown (tables cur) = true) ∧
    ((tables cur).isSubMenu = false →
      ∀ s : Nat, (tables cur).linkedMenu = some s →
        menuBackStep tables cur ≠ MenuBackOutcome.exitMenuSystem ∧
        menuBackStep tables cur = MenuBackOutcome.stayInMenu ∧
        menuBackButtonShown (tables cur) = false) := by
  refine ⟨?_, ?_, ?_⟩
  · intro hsub p hlink
    rw [menuBackStep]
    simp only [hsub, if_true, hlink]
  · intro hmain hnull
    constructor
    · rw [menuBackStep]
      simp only [hmain, hnull]
      rfl
    · rw [menuBackButtonShown, hmain, hnull]
      rfl
  · intro hmain s hlink
    refine ⟨?_, ?_, ?_⟩
    · rw [menuBackStep]
      simp only [hmain, hlink]
      simp
    · rw [menuBackStep]
      simp only [hmain, hlink]
      rfl
    · rw [menuBackButtonShown, hmain, hlink]
      rfl

/-- Witness for C5 on a concrete three-table system: table 1 is a sub
menu with parent 0, table 2 a main menu with a NULL fourth field, table
0 a main menu linking to itself. -/
theorem menuBack_navigation_witness :
    menuBackStep
        (fun i => if i = 1 then ⟨true, some 0⟩
          else if i = 2 then ⟨false, none⟩ else ⟨false, some 0⟩) 1 =
      MenuBackOutcome.switchToTable 0 ∧
    (menuBackStep
        (fun i => if i = 1 then ⟨true, some 0⟩
          else if i = 2 then ⟨false, none⟩ else ⟨false, some 0⟩) 2 =
      MenuBackOutcome.exitMenuSystem ∧
      menuBackButtonShown ⟨false, none⟩ = true) ∧
    (menuBackStep
        (fun i => if i = 1 then ⟨true, some 0⟩
          else if i = 2 then ⟨false, none⟩ else ⟨false, some 0⟩) 0 ≠
      MenuBackOutcome.exitMenuSystem ∧
      menuBackStep
        (fun i => if i = 1 then ⟨true, some 0⟩
          else if i = 2 then ⟨false, none⟩ else ⟨false, some 0⟩) 0 =
      MenuBackOutcome.stayInMenu ∧
      menuBackButtonShown ⟨false, some 0⟩ = false) := by
  refine ⟨?_, ?_, ?_⟩
  · exact (menuBack_navigation _ 1).1 (by decide) 0 (by decide)
  · have h := (menuBack_navigation
      (fun i => if i = 1 then ⟨true, some 0⟩
        else if i = 2 then ⟨false, none⟩ else ⟨false, some 0⟩) 2).2.1
      (by decide) (by decide)
    exact h
  · have h := (menuBack_navigation
      (fun i => if i = 1 then ⟨true, some 0⟩
        else if i = 2 then ⟨false, none⟩ else ⟨false, some 0⟩) 0).2.2
      (by decide) 0 (by decide)
    exact h

end TouchUI
